import Mathlib

/-!
# Soks: the per-connection SOCKS5 handler of `src/soks.c`

A shallow embedding of the child-process path of `main` (lines 130-266 of
`src/soks.c`): greeting negotiation, request decoding, outbound connection,
reply, and the relay loop.

The handler talks to its environment only through system calls.  The results
of those calls are the input of the model (`Env`); the calls it makes, in
order, are its output (`Run.trace`), together with how it ended
(`Run.outcome`).  Bytes are natural numbers (a well-formed byte is below 256),
`ssize_t` and `int` values are integers.  Diagnostic `fprintf` output is not
modelled.
-/

namespace Soks

/-! ## Constants -/

/-- Value of `EXIT_SUCCESS`. -/
def EXIT_SUCCESS : Nat := 0

/-- Value of `EXIT_FAILURE`. -/
def EXIT_FAILURE : Nat := 1

/-- Value of `EINTR` on Linux. -/
def EINTR : Nat := 4

/-- Value of `AF_INET`. -/
def AF_INET : Nat := 2

/-- Size of `buffer` (line 54). -/
def BUFFER_SIZE : Nat := 65536

/-! ## Data model -/

/-- File descriptors the handler passes to system calls.  `client_size` is the
integer variable that line 149 hands to `close`. -/
inductive Fd where
  | client_socket
  | remote_socket
  | client_size
  deriving DecidableEq, Repr

/-- The C array a `write` call takes its bytes from. -/
inductive Buf where
  | method_response
  | connect_response
  | buffer
  deriving DecidableEq, Repr

/-- Result of `read(fd, buffer, BUFFER_SIZE)`: the bytes delivered (the return
value is their number), or `-1` with `errno` set. -/
inductive ReadRes where
  | data (bytes : List Nat)
  | error (errno : Nat)
  deriving DecidableEq, Repr

/-- Result of `write`: the number of bytes accepted, or `-1` with `errno` set. -/
inductive WriteRes where
  | ok (n : Nat)
  | error (errno : Nat)
  deriving DecidableEq, Repr

/-- Result of `select`: `n + 1` descriptors ready (with whether `client_socket`
is among them), `0` on expiry of the timeout, or `-1` with `errno` set. -/
inductive SelectRes where
  | ready (n : Nat) (client_isset : Bool)
  | timeout
  | error (errno : Nat)
  deriving DecidableEq, Repr

/-- The fields of `struct sockaddr_in` as bytes in memory order: `sin_port` and
`sin_addr` are kept in network byte order. -/
structure sockaddr_in where
  sin_family : Nat
  sin_port : Nat × Nat
  sin_addr : Nat × Nat × Nat × Nat
  deriving DecidableEq, Repr

/-- The fields of `struct hostent` the handler looks at; `h_addr` is the head
of `h_addr_list` (a null pointer when the list is empty). -/
structure hostent where
  h_addrtype : Nat
  h_addr_list : List (Nat × Nat × Nat × Nat)
  deriving DecidableEq, Repr

/-- Command-line settings the handler uses. -/
structure Config where
  interface_name : List Nat
  timeout_seconds : Int
  deriving DecidableEq, Repr

/-- One system call of the handler, with its arguments and result. -/
inductive Event where
  | read (fd : Fd) (r : ReadRes)
  | write (fd : Fd) (src : Buf) (data : List Nat) (ret : Int)
  | close (fd : Fd)
  | gethostbyname (name : List Nat)
  | socket (ret : Int)
  | setsockopt (name : List Nat) (optlen : Nat) (ret : Int)
  | connect (addr : sockaddr_in) (ret : Int)
  | getsockname (fd : Fd)
  | select (tv_sec : Int) (tv_usec : Int) (r : SelectRes)
  deriving DecidableEq, Repr

/-- How a run ended: the process exited with a code, or the scripted results
of a system call ran out while the handler was blocked in that call. -/
inductive Outcome where
  | exited (code : Nat)
  | awaiting_select
  | awaiting_read
  | awaiting_write
  deriving DecidableEq, Repr

/-- A run of the handler: the system calls made and the outcome. -/
structure Run where
  trace : List Event
  outcome : Outcome
  deriving DecidableEq, Repr

/-- The results of the system calls of one connection.  Before the relay every
call site is reached at most once, so one result per call suffices; the relay
consumes the three result lists in order. -/
structure Env where
  greeting : ReadRes
  method_write : WriteRes
  request : ReadRes
  failure_write : WriteRes
  gethostbyname : List Nat → Option hostent
  socket : Int
  setsockopt : Int
  connect : Int
  getsockname : Fd → Option sockaddr_in
  reply_write : WriteRes
  selects : List SelectRes
  reads : List ReadRes
  writes : List WriteRes

/-! ## System-call results as C values -/

/-- Return value of a `read`. -/
def ReadRes.ret : ReadRes → Int
  | .data bytes => (bytes.length : Int)
  | .error _ => -1

/-- Value of `errno` after a `read` that was entered with `errno = 0`. -/
def ReadRes.errno : ReadRes → Nat
  | .data _ => 0
  | .error e => e

/-- Contents of `buffer` after a `read` into its start: the bytes delivered
replace the first bytes, the rest keeps what it held. -/
def ReadRes.store : ReadRes → List Nat → List Nat
  | .data bytes, buffer => bytes ++ buffer.drop bytes.length
  | .error _, buffer => buffer

/-- Return value of a `write`. -/
def WriteRes.ret : WriteRes → Int
  | .ok n => (n : Int)
  | .error _ => -1

/-- Value of `errno` set by a failed `write`. -/
def WriteRes.errno : WriteRes → Nat
  | .ok _ => 0
  | .error e => e

/-- Return value of a `select`. -/
def SelectRes.res : SelectRes → Int
  | .ready n _ => (n : Int) + 1
  | .timeout => 0
  | .error _ => -1

/-- Value of `errno` after a `select` that was entered with `errno = 0`. -/
def SelectRes.errno : SelectRes → Nat
  | .ready _ _ => 0
  | .timeout => 0
  | .error e => e

/-- Value of `FD_ISSET(client_socket, &fv)` after a `select`. -/
def SelectRes.client_isset : SelectRes → Bool
  | .ready _ b => b
  | .timeout => false
  | .error _ => false

/-- The byte `buffer[i]`. -/
def byte_at (buffer : List Nat) (i : Nat) : Nat := buffer.getD i 0

/-- Semantics of `memcpy(dst, &buffer[off], n)`: the first `n` bytes of `dst`
are replaced by `buffer[off .. off + n)`. -/
def memcpy (dst buffer : List Nat) (off n : Nat) : List Nat :=
  (List.range n).map (fun i => byte_at buffer (off + i)) ++ dst.drop n

/-- The C string held in a char array: the bytes before the first NUL. -/
def c_string (chars : List Nat) : List Nat := chars.takeWhile (fun c => c != 0)

/-- Host-order value of a port kept in network byte order (`ntohs`). -/
def ntohs (port : Nat × Nat) : Nat := 256 * port.1 + port.2

/-- Puts events in front of a run. -/
def Run.prepend (events : List Event) (r : Run) : Run :=
  ⟨events ++ r.trace, r.outcome⟩

/-! ## The relay loop (lines 221-266) -/

/-- Result of the inner write loop. -/
inductive LoopRes where
  | done (ret : Int) (rest : List WriteRes)
  | exited (code : Nat)
  | awaiting_write
  deriving DecidableEq, Repr

/-- The loop `while(written < total)` of lines 251-263: `written` and `ret` are
the C variables, the list holds the results of the `write` calls to come.
`errno` is read only after a call that returned a negative value, so it is the
value that call set. -/
def write_loop (receiver : Fd) (buffer : List Nat) (total : Nat) :
    Nat → Int → List WriteRes → List Event × LoopRes
  | written, ret, [] =>
    if written < total then ([], .awaiting_write) else ([], .done ret [])
  | written, ret, w :: ws =>
    if written < total then
      let data := (buffer.drop written).take (total - written)
      let ev := Event.write receiver .buffer data w.ret
      if w.ret ≤ 0 then
        if w.ret < 0 ∧ w.errno = EINTR then
          let r := write_loop receiver buffer total written w.ret ws
          (ev :: r.1, r.2)
        else
          ([ev, .close .client_socket, .close .remote_socket],
            .exited (if w.ret = 0 then EXIT_SUCCESS else EXIT_FAILURE))
      else
        let r := write_loop receiver buffer total (written + w.ret.toNat) w.ret ws
        (ev :: r.1, r.2)
    else ([], .done ret (w :: ws))

/-- The loop `while(true)` of lines 221-266.  `ret` is the C variable as the
previous statement left it, `buffer` the relay buffer; each iteration takes the
next `select` result, and a read or write takes the next result of its list. -/
def relay (cfg : Config) :
    Int → List Nat → List SelectRes → List ReadRes → List WriteRes → Run
  | _, _, [], _, _ => ⟨[], .awaiting_select⟩
  | ret, buffer, s :: ss, rs, ws =>
    let ev_select := Event.select cfg.timeout_seconds 0 s
    if s.res ≤ 0 then
      if ret < 0 ∧ s.errno = EINTR then
        Run.prepend [ev_select] (relay cfg ret buffer ss rs ws)
      else
        ⟨[ev_select, .close .client_socket, .close .remote_socket], .exited EXIT_FAILURE⟩
    else
      let sender := if s.client_isset then Fd.client_socket else Fd.remote_socket
      let receiver := if sender = Fd.client_socket then Fd.remote_socket else Fd.client_socket
      match rs with
      | [] => ⟨[ev_select], .awaiting_read⟩
      | r :: rs' =>
        let ret := r.ret
        let buffer := r.store buffer
        let ev_read := Event.read sender r
        if ret ≤ 0 then
          if ret < 0 ∧ r.errno = EINTR then
            Run.prepend [ev_select, ev_read] (relay cfg ret buffer ss rs' ws)
          else
            ⟨[ev_select, ev_read, .close .client_socket, .close .remote_socket],
              .exited (if ret = 0 then EXIT_SUCCESS else EXIT_FAILURE)⟩
        else
          match write_loop receiver buffer ret.toNat 0 ret ws with
          | (evs, .done ret' ws') =>
            Run.prepend (ev_select :: ev_read :: evs) (relay cfg ret' buffer ss rs' ws')
          | (evs, .exited code) => ⟨ev_select :: ev_read :: evs, .exited code⟩
          | (evs, .awaiting_write) => ⟨ev_select :: ev_read :: evs, .awaiting_write⟩

/-! ## Outbound connection and reply (lines 193-216) -/

/-- Initial value of `connect_response` (line 153): the generic-failure reply. -/
def connect_response : List Nat :=
  [0x05, 0x01, 0x00, 0x01, 0x00, 0x00, 0x00, 0x00, 0x00, 0x00]

/-- The statements `write(client_socket, connect_response, 10);
close(client_socket); exit(EXIT_FAILURE);` that end every failure path between
lines 154 and 208, after the calls in `before`. -/
def fail_reply (env : Env) (before : List Event) : Run :=
  ⟨before ++ [.write .client_socket .connect_response connect_response env.failure_write.ret,
      .close .client_socket],
    .exited EXIT_FAILURE⟩

/-- Lines 193-216 followed by the relay: `ret` and `buffer` are as the request
stage left them, `remote_address` is the decoded target. -/
def connect_stage (cfg : Config) (env : Env) (ret : Int) (buffer : List Nat)
    (remote_address : sockaddr_in) : Run :=
  let remote_socket := env.socket
  let ev_socket := Event.socket remote_socket
  if remote_socket < 0 then fail_reply env [ev_socket]
  else
    let ev_opt := Event.setsockopt cfg.interface_name (cfg.interface_name.length + 1)
      env.setsockopt
    let ev_connect := Event.connect remote_address env.connect
    if env.connect < 0 then fail_reply env [ev_socket, ev_opt, ev_connect]
    else
      let ev_name := Event.getsockname .client_socket
      match env.getsockname .client_socket with
      | none => fail_reply env [ev_socket, ev_opt, ev_connect, ev_name]
      | some local_address =>
        let reply : List Nat :=
          [0x05, 0x00, 0x00, 0x01,
            local_address.sin_addr.1, local_address.sin_addr.2.1,
            local_address.sin_addr.2.2.1, local_address.sin_addr.2.2.2,
            local_address.sin_port.1, local_address.sin_port.2]
        let ev_reply := Event.write .client_socket .connect_response reply env.reply_write.ret
        if env.reply_write.ret ≠ 10 then
          ⟨[ev_socket, ev_opt, ev_connect, ev_name, ev_reply, .close .client_socket],
            .exited EXIT_FAILURE⟩
        else
          Run.prepend [ev_socket, ev_opt, ev_connect, ev_name, ev_reply]
            (relay cfg ret buffer env.selects env.reads env.writes)

/-! ## Request decoding (lines 152-188) -/

/-- Lines 152-188 followed by the connection stage.  `buffer0` is what `buffer`
held before the request is read; `domain_buffer` starts as 256 zero bytes.  A
null `host` is `none`, a null `h_addr` an empty `h_addr_list`. -/
def request_stage (cfg : Config) (env : Env) (buffer0 : List Nat) : Run :=
  let ret := env.request.ret
  let buffer := env.request.store buffer0
  let ev_read := Event.read .client_socket env.request
  if ret < 5 ∨ byte_at buffer 0 ≠ 0x05 ∨ byte_at buffer 1 ≠ 0x01 ∨ byte_at buffer 2 ≠ 0x00 then
    fail_reply env [ev_read]
  else if byte_at buffer 3 = 0x01 then
    if ret ≠ 10 then fail_reply env [ev_read]
    else
      Run.prepend [ev_read] (connect_stage cfg env ret buffer
        { sin_family := AF_INET,
          sin_addr := (byte_at buffer 4, byte_at buffer 5, byte_at buffer 6, byte_at buffer 7),
          sin_port := (byte_at buffer 8, byte_at buffer 9) })
  else if byte_at buffer 3 = 0x03 then
    let domain_length := byte_at buffer 4
    if ret ≠ (domain_length : Int) + 7 then fail_reply env [ev_read]
    else
      let domain_buffer := memcpy (List.replicate 256 0) buffer 5 domain_length
      let sin_port := (byte_at buffer (domain_length + 5), byte_at buffer (domain_length + 5 + 1))
      let name := c_string domain_buffer
      let ev_host := Event.gethostbyname name
      match env.gethostbyname name with
      | none => fail_reply env [ev_read, ev_host]
      | some host =>
        if host.h_addrtype ≠ AF_INET then fail_reply env [ev_read, ev_host]
        else
          match host.h_addr_list with
          | [] => fail_reply env [ev_read, ev_host]
          | h_addr :: _ =>
            Run.prepend [ev_read, ev_host] (connect_stage cfg env ret buffer
              { sin_family := AF_INET, sin_addr := h_addr, sin_port := sin_port })
  else fail_reply env [ev_read]

/-! ## Greeting negotiation (lines 133-151) -/

/-- The loop `for(size_t i = 0; i < buffer[1] && !ok; i++) ok = buffer[i + 2] == 0;`
(lines 143-145) with `n = buffer[1]`, from the state `i`, `ok`.  The first
argument bounds the number of iterations; `n` iterations always suffice
because `i` grows by one in each. -/
def method_scan (buffer : List Nat) (n : Nat) : Nat → Nat → Bool → Bool
  | 0, _, ok => ok
  | fuel + 1, i, ok =>
    if i < n ∧ ok = false then method_scan buffer n fuel (i + 1) (byte_at buffer (i + 2) == 0)
    else ok

/-- The child-process path of `main` from line 133 on: one client connection,
handled to its end.  `buffer0` is what `buffer` holds when the child starts. -/
def handler (cfg : Config) (env : Env) (buffer0 : List Nat) : Run :=
  let ret := env.greeting.ret
  let buffer := env.greeting.store buffer0
  let ev_read := Event.read .client_socket env.greeting
  if ret < 0 then ⟨[ev_read], .exited EXIT_FAILURE⟩
  else if ret < 3 ∨ byte_at buffer 0 ≠ 0x05 ∨ (byte_at buffer 1 : Int) ≠ ret - 2 then
    ⟨[ev_read, .close .client_socket], .exited EXIT_FAILURE⟩
  else
    let ok := method_scan buffer (byte_at buffer 1) (byte_at buffer 1) 0 false
    let method_response : List Nat := [0x05, if ok then 0x00 else 0xFF]
    let ret := env.method_write.ret
    let ev_write := Event.write .client_socket .method_response method_response ret
    if ret ≠ 2 ∨ ok = false then
      ⟨[ev_read, ev_write, .close .client_size], .exited EXIT_FAILURE⟩
    else
      Run.prepend [ev_read, ev_write] (request_stage cfg env buffer)

/-! ## Observations on traces -/

/-- The bytes a `write` call on `fd` got accepted: the first `ret` of the bytes
offered (none when the call failed or was on another descriptor). -/
def Event.accepted (fd : Fd) : Event → List Nat
  | .write fd' _ data ret => if fd' = fd then data.take ret.toNat else []
  | _ => []

/-- The bytes accepted by the `write` calls on `fd` in a trace, in order. -/
def written_to (fd : Fd) : List Event → List Nat
  | [] => []
  | e :: t => e.accepted fd ++ written_to fd t

/-- A sample environment in which every call succeeds: greeting `05 01 00`,
then a CONNECT to 127.0.0.1:8080, no relay traffic scripted. -/
def sample_env : Env where
  greeting := .data [5, 1, 0]
  method_write := .ok 2
  request := .data [5, 1, 0, 1, 127, 0, 0, 1, 0x1F, 0x90]
  failure_write := .ok 10
  gethostbyname := fun _ => some ⟨AF_INET, [(10, 0, 0, 7)]⟩
  socket := 5
  setsockopt := 0
  connect := 0
  getsockname := fun fd =>
    match fd with
    | .client_socket => some ⟨AF_INET, (4, 56), (127, 0, 0, 1)⟩
    | _ => some ⟨AF_INET, (200, 1), (10, 8, 0, 2)⟩
  reply_write := .ok 10
  selects := []
  reads := []
  writes := []

/-- A greeting `05 00`: version 5 and an empty method list. -/
def env_no_methods : Env := { sample_env with greeting := .data [5, 0] }

/-- The sample connection in an environment where `setsockopt(SO_BINDTODEVICE)`
fails, every other call succeeds, and the client then sends three bytes. -/
def env_bind_fails : Env :=
  { sample_env with
    setsockopt := -1
    selects := [.ready 0 true]
    reads := [.data [71, 69, 84]]
    writes := [.ok 3] }

/-- The sample connection in an environment where the first `select` of the
relay fails with `EINTR`. -/
def env_select_interrupted : Env := { sample_env with selects := [.error EINTR] }

/-- What is asked of an event if it is a connect reply: it goes to the client
and is the failure reply or the success reply built from the local address of
`client_socket`. -/
def reply_ok (env : Env) : Event → Prop
  | .write fd .connect_response data _ =>
    fd = .client_socket ∧
      (data = [0x05, 0x01, 0x00, 0x01, 0x00, 0x00, 0x00, 0x00, 0x00, 0x00] ∨
        ∃ la, env.getsockname .client_socket = some la ∧
          data = [0x05, 0x00, 0x00, 0x01, la.sin_addr.1, la.sin_addr.2.1, la.sin_addr.2.2.1,
            la.sin_addr.2.2.2, la.sin_port.1, la.sin_port.2])
  | _ => True

theorem byte_at_append_lt (l r : List Nat) (i : Nat) (h : i < l.length) :
    byte_at (l ++ r) i = byte_at l i := by
  unfold byte_at
  exact List.getD_append l r 0 i h

theorem method_scan_true (buffer : List Nat) (n fuel i : Nat) :
    method_scan buffer n fuel i true = true := by
  cases fuel <;> simp [method_scan]

/-- With fuel for the remaining iterations, the scan from `i` finds a zero
exactly when one of `buffer[i + 2], ..., buffer[n + 1]` is zero. -/
theorem method_scan_false (buffer : List Nat) (n : Nat) :
    ∀ fuel i, i + fuel = n →
      (method_scan buffer n fuel i false = true ↔
        ∃ j, i ≤ j ∧ j < n ∧ byte_at buffer (j + 2) = 0) := by
  intro fuel
  induction fuel with
  | zero =>
    intro i h
    simp only [method_scan]
    constructor
    · intro hf; cases hf
    · rintro ⟨j, h1, h2, _⟩; omega
  | succ fuel ih =>
    intro i h
    have hi : i < n := by omega
    simp only [method_scan, hi, and_self, if_true]
    by_cases hb : byte_at buffer (i + 2) = 0
    · simp only [hb, beq_self_eq_true, method_scan_true, true_iff]
      exact ⟨i, le_refl i, hi, hb⟩
    · have hbe : (byte_at buffer (i + 2) == 0) = false := by simpa using hb
      rw [hbe, ih (i + 1) (by omega)]
      constructor
      · rintro ⟨j, h1, h2, h3⟩
        exact ⟨j, by omega, h2, h3⟩
      · rintro ⟨j, h1, h2, h3⟩
        have hne : j ≠ i := by
          intro he; subst he; exact hb h3
        exact ⟨j, by omega, h2, h3⟩

/-- On a buffer that starts with a greeting `VER, NMETHODS, METHODS`, the scan
finds a zero exactly when the method list contains the byte 0. -/
theorem method_scan_greeting (ver : Nat) (methods tail : List Nat) :
    method_scan (ver :: methods.length :: methods ++ tail) methods.length methods.length 0 false
      = true ↔ 0 ∈ methods := by
  rw [method_scan_false _ _ _ 0 (by omega)]
  constructor
  · rintro ⟨j, _, h2, h3⟩
    have h4 : byte_at (ver :: methods.length :: methods ++ tail) (j + 2) = byte_at methods j := by
      show byte_at (methods ++ tail) j = byte_at methods j
      exact byte_at_append_lt _ _ _ h2
    rw [h4] at h3
    unfold byte_at at h3
    rw [List.getD_eq_getElem _ _ h2] at h3
    rw [← h3]
    exact List.getElem_mem _
  · intro h
    obtain ⟨j, hj, hjz⟩ := List.getElem_of_mem h
    refine ⟨j, Nat.zero_le _, hj, ?_⟩
    show byte_at (methods ++ tail) j = 0
    rw [byte_at_append_lt _ _ _ hj]
    unfold byte_at
    rw [List.getD_eq_getElem _ _ hj]
    exact hjz

/-! ## Greeting negotiation -/

/-- C1: a greeting read in one piece with VER = 5, as many methods as NMETHODS
says, and the byte 0 among them is answered by one write of `05 00` to the
client; when that write returns 2 the handler goes on with the request stage,
otherwise it closes and fails. -/
theorem greeting_with_no_auth_selects_it (cfg : Config) (env : Env) (buffer0 methods : List Nat)
    (hg : env.greeting = .data (5 :: methods.length :: methods))
    (h0 : 0 ∈ methods) :
    (env.method_write.ret = 2 →
      handler cfg env buffer0 =
        Run.prepend
          [.read .client_socket env.greeting,
            .write .client_socket .method_response [0x05, 0x00] 2]
          (request_stage cfg env (env.greeting.store buffer0))) ∧
    (env.method_write.ret ≠ 2 →
      handler cfg env buffer0 =
        ⟨[.read .client_socket env.greeting,
            .write .client_socket .method_response [0x05, 0x00] env.method_write.ret,
            .close .client_size],
          .exited EXIT_FAILURE⟩) := by
  have hlen : 1 ≤ methods.length := List.length_pos_of_mem h0
  have hret : env.greeting.ret = (methods.length : Int) + 2 := by
    rw [hg]; simp only [ReadRes.ret, List.length_cons]; push_cast; ring
  have hb0 : byte_at (env.greeting.store buffer0) 0 = 5 := by rw [hg]; rfl
  have hb1 : byte_at (env.greeting.store buffer0) 1 = methods.length := by rw [hg]; rfl
  have hscan : method_scan (env.greeting.store buffer0) methods.length methods.length 0 false
      = true := by
    rw [hg]; exact (method_scan_greeting 5 methods _).2 h0
  have h1 : ¬ ((methods.length : Int) + 2 < 0) := by omega
  have h2 : ¬ ((methods.length : Int) + 2 < 3 ∨ (5 : Nat) ≠ 0x05 ∨
      ((methods.length : Nat) : Int) ≠ (methods.length : Int) + 2 - 2) := by
    rintro (h | h | h)
    · omega
    · exact h rfl
    · omega
  constructor
  · intro hw
    unfold handler
    simp only [hret, hb0, hb1, hscan, if_neg h1, if_neg h2, hw]
    simp
  · intro hw
    unfold handler
    simp only [hret, hb0, hb1, hscan, if_neg h1, if_neg h2]
    simp [hw]

/-- Witness for C1 on the greeting `05 01 00`. -/
theorem greeting_with_no_auth_selects_it_witness :
    sample_env.greeting = .data (5 :: [0].length :: [0]) ∧ 0 ∈ [0] ∧
      sample_env.method_write.ret = 2 ∧
      handler ⟨[116, 117, 110, 48], 60⟩ sample_env [] =
        Run.prepend
          [.read .client_socket sample_env.greeting,
            .write .client_socket .method_response [0x05, 0x00] 2]
          (request_stage ⟨[116, 117, 110, 48], 60⟩ sample_env
            (sample_env.greeting.store [])) :=
  ⟨rfl, by decide, rfl,
    (greeting_with_no_auth_selects_it ⟨[116, 117, 110, 48], 60⟩ sample_env [] [0] rfl
      (by decide)).1 rfl⟩

/-- Counterexample to C2 as stated, at NMETHODS = 0: the greeting `05 00` has
read length NMETHODS + 2 and no method 0, yet the handler closes the client
socket and fails without writing anything. -/
theorem greeting_without_methods_gets_no_answer :
    env_no_methods.greeting = .data (5 :: ([] : List Nat).length :: []) ∧
      0 ∉ ([] : List Nat) ∧
      handler ⟨[116, 117, 110, 48], 60⟩ env_no_methods [] =
        ⟨[.read .client_socket (.data [5, 0]), .close .client_socket],
          .exited EXIT_FAILURE⟩ ∧
      ¬ (∃ ret, Event.write .client_socket .method_response [0x05, 0xFF] ret ∈
        (handler ⟨[116, 117, 110, 48], 60⟩ env_no_methods []).trace) := by
  refine ⟨rfl, by decide, by decide, ?_⟩
  have h : (handler ⟨[116, 117, 110, 48], 60⟩ env_no_methods []).trace =
      [.read .client_socket (.data [5, 0]), .close .client_socket] := by decide
  rw [h]
  simp

/-- C2 (amended): a greeting read in one piece with VER = 5, as many methods as
NMETHODS says, at least one method and none of them 0 is answered by one write
of `05 FF` to the client, after which the handler fails without reading a
request, whatever the write returned. -/
theorem greeting_without_no_auth_is_refused (cfg : Config) (env : Env)
    (buffer0 methods : List Nat)
    (hg : env.greeting = .data (5 :: methods.length :: methods))
    (hne : methods ≠ [])
    (h0 : 0 ∉ methods) :
    handler cfg env buffer0 =
      ⟨[.read .client_socket env.greeting,
          .write .client_socket .method_response [0x05, 0xFF] env.method_write.ret,
          .close .client_size],
        .exited EXIT_FAILURE⟩ := by
  have hlen : 1 ≤ methods.length := List.length_pos.2 hne
  have hret : env.greeting.ret = (methods.length : Int) + 2 := by
    rw [hg]; simp only [ReadRes.ret, List.length_cons]; push_cast; ring
  have hb0 : byte_at (env.greeting.store buffer0) 0 = 5 := by rw [hg]; rfl
  have hb1 : byte_at (env.greeting.store buffer0) 1 = methods.length := by rw [hg]; rfl
  have hscan : method_scan (env.greeting.store buffer0) methods.length methods.length 0 false
      = false := by
    rw [hg]
    cases hs : method_scan ((5 :: methods.length :: methods) ++
        List.drop (5 :: methods.length :: methods).length buffer0)
        methods.length methods.length 0 false with
    | false => exact hs
    | true => exact absurd ((method_scan_greeting 5 methods _).1 hs) h0
  have h1 : ¬ ((methods.length : Int) + 2 < 0) := by omega
  have h2 : ¬ ((methods.length : Int) + 2 < 3 ∨ (5 : Nat) ≠ 0x05 ∨
      ((methods.length : Nat) : Int) ≠ (methods.length : Int) + 2 - 2) := by
    rintro (h | h | h)
    · omega
    · exact h rfl
    · omega
  unfold handler
  simp only [hret, hb0, hb1, hscan, if_neg h1, if_neg h2]
  simp

/-- Witness for C2 (amended) on the greeting `05 02 01 02`. -/
theorem greeting_without_no_auth_is_refused_witness :
    ({ sample_env with greeting := .data [5, 2, 1, 2] } : Env).greeting =
        .data (5 :: [1, 2].length :: [1, 2]) ∧
      [1, 2] ≠ ([] : List Nat) ∧ 0 ∉ [1, 2] ∧
      handler ⟨[116, 117, 110, 48], 60⟩ { sample_env with greeting := .data [5, 2, 1, 2] } [] =
        ⟨[.read .client_socket (.data [5, 2, 1, 2]),
            .write .client_socket .method_response [0x05, 0xFF] 2,
            .close .client_size],
          .exited EXIT_FAILURE⟩ :=
  ⟨rfl, by decide, by decide,
    greeting_without_no_auth_is_refused ⟨[116, 117, 110, 48], 60⟩
      { sample_env with greeting := .data [5, 2, 1, 2] } [] [1, 2] rfl (by decide) (by decide)⟩

/-! ## Outbound connection -/

/-- C3, the code at the failing input: the result of `setsockopt` is `-1`, the
handler goes on to `connect`, writes the success reply `05 00 ...` to the
client, never writes the failure reply, and relays the next client bytes to
the target. -/
theorem bind_failure_is_ignored :
    handler ⟨[116, 117, 110, 48], 60⟩ env_bind_fails [] =
      ⟨[.read .client_socket (.data [5, 1, 0]),
          .write .client_socket .method_response [0x05, 0x00] 2,
          .read .client_socket (.data [5, 1, 0, 1, 127, 0, 0, 1, 0x1F, 0x90]),
          .socket 5,
          .setsockopt [116, 117, 110, 48] 5 (-1),
          .connect ⟨AF_INET, (0x1F, 0x90), (127, 0, 0, 1)⟩ 0,
          .getsockname .client_socket,
          .write .client_socket .connect_response [5, 0, 0, 1, 127, 0, 0, 1, 4, 56] 10,
          .select 60 0 (.ready 0 true),
          .read .client_socket (.data [71, 69, 84]),
          .write .remote_socket .buffer [71, 69, 84] 3],
        .awaiting_select⟩ := by
  decide

/-! ## Request decoding -/

/-- The decoder's reject paths, on the values the code tests: whenever one of
the tests of lines 154, 161, 170 or the final `else` fires, the request stage is
the failure reply, `close` and `exit(EXIT_FAILURE)`. -/
theorem request_stage_reject (cfg : Config) (env : Env) (buffer0 : List Nat)
    (h : env.request.ret < 5 ∨ byte_at (env.request.store buffer0) 0 ≠ 5 ∨
      byte_at (env.request.store buffer0) 1 ≠ 1 ∨
      byte_at (env.request.store buffer0) 2 ≠ 0 ∨
      (byte_at (env.request.store buffer0) 3 = 1 ∧ env.request.ret ≠ 10) ∨
      (byte_at (env.request.store buffer0) 3 = 3 ∧
        env.request.ret ≠ (byte_at (env.request.store buffer0) 4 : Int) + 7) ∨
      (byte_at (env.request.store buffer0) 3 ≠ 1 ∧
        byte_at (env.request.store buffer0) 3 ≠ 3)) :
    request_stage cfg env buffer0 = fail_reply env [.read .client_socket env.request] := by
  unfold request_stage
  simp only []
  split_ifs with h1 h2 h3 h4 h5
  · rfl
  · rfl
  · exfalso
    rcases h with h | h | h | h | h | h | h
    · exact h1 (Or.inl h)
    · exact h1 (Or.inr (Or.inl h))
    · exact h1 (Or.inr (Or.inr (Or.inl h)))
    · exact h1 (Or.inr (Or.inr (Or.inr h)))
    · exact h.2 (not_not.1 h3)
    · rw [h2] at h; exact absurd h.1 (by decide)
    · exact h.1 h2
  · rfl
  · exfalso
    rcases h with h | h | h | h | h | h | h
    · exact h1 (Or.inl h)
    · exact h1 (Or.inr (Or.inl h))
    · exact h1 (Or.inr (Or.inr (Or.inl h)))
    · exact h1 (Or.inr (Or.inr (Or.inr h)))
    · exact h2 h.1
    · exact h.2 (not_not.1 h5)
    · exact h.2 h4
  · rfl

/-- The connection stage always starts by calling `socket`. -/
theorem connect_stage_calls_socket (cfg : Config) (env : Env) (ret : Int) (buffer : List Nat)
    (addr : sockaddr_in) :
    Event.socket env.socket ∈ (connect_stage cfg env ret buffer addr).trace := by
  unfold connect_stage
  simp only []
  by_cases h1 : env.socket < 0
  · simp [h1, fail_reply]
  · by_cases h2 : env.connect < 0
    · simp [h1, h2, fail_reply]
    · simp only [if_neg h1, if_neg h2]
      cases hn : env.getsockname .client_socket with
      | none => simp [fail_reply]
      | some la =>
        by_cases h3 : env.reply_write.ret = 10 <;> simp [h3, Run.prepend]

/-- A list is shorter than five or has five leading elements. -/
theorem short_or_five (msg : List Nat) :
    msg.length < 5 ∨ ∃ a b c d e rest, msg = a :: b :: c :: d :: e :: rest := by
  match msg with
  | [] => left; simp
  | [_] => left; simp
  | [_, _] => left; simp
  | [_, _, _] => left; simp
  | [_, _, _, _] => left; simp
  | a :: b :: c :: d :: e :: rest => right; exact ⟨a, b, c, d, e, rest, rfl⟩

/-- The decoder on a ten-byte IPv4 request: it goes on to the connection stage
with the address and port bytes of the message. -/
theorem request_stage_ipv4 (cfg : Config) (env : Env) (buffer0 : List Nat)
    (a b c d p q : Nat)
    (hr : env.request = .data [0x05, 0x01, 0x00, 0x01, a, b, c, d, p, q]) :
    request_stage cfg env buffer0 =
        Run.prepend [.read .client_socket env.request]
          (connect_stage cfg env 10 (env.request.store buffer0)
            { sin_family := AF_INET, sin_addr := (a, b, c, d), sin_port := (p, q) }) := by
  unfold request_stage
  rw [hr]
  simp [ReadRes.ret, ReadRes.store, byte_at]

/-- After a read of at least five bytes with VER = 5, CMD = 1, RSV = 0, ATYP = 3
and a length of `buffer[4] + 7`, the decoder calls `gethostbyname` on the C
string in `domain_buffer`. -/
theorem request_stage_domain_lookup (cfg : Config) (env : Env) (buffer0 : List Nat)
    (h5 : ¬ env.request.ret < 5)
    (h0 : byte_at (env.request.store buffer0) 0 = 5)
    (h1 : byte_at (env.request.store buffer0) 1 = 1)
    (h2 : byte_at (env.request.store buffer0) 2 = 0)
    (h3 : byte_at (env.request.store buffer0) 3 = 3)
    (hl : env.request.ret = (byte_at (env.request.store buffer0) 4 : Int) + 7) :
    Event.gethostbyname
        (c_string (memcpy (List.replicate 256 0) (env.request.store buffer0) 5
          (byte_at (env.request.store buffer0) 4))) ∈
      (request_stage cfg env buffer0).trace := by
  have hc : ¬ (env.request.ret < 5 ∨ byte_at (env.request.store buffer0) 0 ≠ 0x05 ∨
      byte_at (env.request.store buffer0) 1 ≠ 0x01 ∨
      byte_at (env.request.store buffer0) 2 ≠ 0x00) := by
    rintro (h | h | h | h)
    · exact h5 h
    · exact h h0
    · exact h h1
    · exact h h2
  have h31 : ¬ byte_at (env.request.store buffer0) 3 = 0x01 := by rw [h3]; decide
  have hl' : ¬ env.request.ret ≠ (byte_at (env.request.store buffer0) 4 : Int) + 7 :=
    not_not.2 hl
  unfold request_stage
  simp only [if_neg hc, if_neg h31, if_pos h3, if_neg hl']
  generalize c_string (memcpy (List.replicate 256 0)
      (env.request.store buffer0) 5 (byte_at (env.request.store buffer0) 4)) = name
  cases env.gethostbyname name with
  | none => simp [fail_reply]
  | some host =>
    simp only []
    by_cases hf : host.h_addrtype ≠ AF_INET
    · simp [hf, fail_reply]
    · simp only [if_neg hf]
      cases host.h_addr_list with
      | nil => simp [fail_reply]
      | cons x xs => simp [Run.prepend]

/-- C4: a request `05 01 00 01 a b c d p q` passes the decoder; the target
handed to the connection stage, and to `connect` once the socket exists, has
address bytes `a b c d` and port bytes `p q`, that is port `256 * p + q`. -/
theorem ipv4_request_decodes (cfg : Config) (env : Env) (buffer0 : List Nat)
    (a b c d p q : Nat)
    (hr : env.request = .data [0x05, 0x01, 0x00, 0x01, a, b, c, d, p, q]) :
    request_stage cfg env buffer0 =
        Run.prepend [.read .client_socket env.request]
          (connect_stage cfg env 10 (env.request.store buffer0)
            { sin_family := AF_INET, sin_addr := (a, b, c, d), sin_port := (p, q) }) ∧
      ntohs (p, q) = 256 * p + q ∧
      (0 ≤ env.socket →
        Event.connect { sin_family := AF_INET, sin_addr := (a, b, c, d), sin_port := (p, q) }
          env.connect ∈ (request_stage cfg env buffer0).trace) := by
  have h1 := request_stage_ipv4 cfg env buffer0 a b c d p q hr
  refine ⟨h1, rfl, ?_⟩
  intro hs
  rw [h1]
  have hs' : ¬ env.socket < 0 := by omega
  unfold connect_stage
  simp only [if_neg hs', Run.prepend]
  by_cases hc : env.connect < 0
  · simp [hc, fail_reply]
  · simp only [if_neg hc]
    cases hn : env.getsockname .client_socket with
    | none => simp [fail_reply]
    | some la =>
      simp only
      split_ifs <;> simp

/-- Witness for C4: `05 01 00 01 5D B8 D8 22 00 50` decodes to 93.184.216.34,
port 80. -/
theorem ipv4_request_decodes_witness :
    ({ sample_env with request := .data [0x05, 0x01, 0x00, 0x01, 0x5D, 0xB8, 0xD8, 0x22, 0x00, 0x50] }
        : Env).request = .data [0x05, 0x01, 0x00, 0x01, 93, 184, 216, 34, 0, 80] ∧
      ntohs (0, 80) = 80 ∧
      Event.connect { sin_family := AF_INET, sin_addr := (93, 184, 216, 34), sin_port := (0, 80) }
          0 ∈ (request_stage ⟨[116, 117, 110, 48], 60⟩
            { sample_env with
              request := .data [0x05, 0x01, 0x00, 0x01, 0x5D, 0xB8, 0xD8, 0x22, 0x00, 0x50] }
            []).trace :=
  ⟨rfl, rfl,
    (ipv4_request_decodes ⟨[116, 117, 110, 48], 60⟩
      { sample_env with
        request := .data [0x05, 0x01, 0x00, 0x01, 0x5D, 0xB8, 0xD8, 0x22, 0x00, 0x50] }
      [] 93 184 216 34 0 80 rfl).2.2 (by decide)⟩

/-- C5: for a request that starts `05 01 00 01`, the decoder goes on to open the
outbound socket exactly when the message is 10 bytes long; at any other length
the run is the failure reply, `close` and a failing exit, with no `socket` or
`connect` call. -/
theorem ipv4_request_accepted_iff_ten_bytes (cfg : Config) (env : Env)
    (buffer0 rest : List Nat)
    (hr : env.request = .data (0x05 :: 0x01 :: 0x00 :: 0x01 :: rest)) :
    ((0x05 :: 0x01 :: 0x00 :: 0x01 :: rest).length = 10 ↔
        ∃ fd, Event.socket fd ∈ (request_stage cfg env buffer0).trace) ∧
      ((0x05 :: 0x01 :: 0x00 :: 0x01 :: rest).length = 10 →
        ∃ addr, request_stage cfg env buffer0 =
          Run.prepend [.read .client_socket env.request]
            (connect_stage cfg env 10 (env.request.store buffer0) addr)) ∧
      ((0x05 :: 0x01 :: 0x00 :: 0x01 :: rest).length ≠ 10 →
        request_stage cfg env buffer0 =
          ⟨[.read .client_socket env.request,
              .write .client_socket .connect_response
                [0x05, 0x01, 0x00, 0x01, 0x00, 0x00, 0x00, 0x00, 0x00, 0x00]
                env.failure_write.ret,
              .close .client_socket],
            .exited EXIT_FAILURE⟩) := by
  have hbad : (0x05 :: 0x01 :: 0x00 :: 0x01 :: rest).length ≠ 10 →
      request_stage cfg env buffer0 = fail_reply env [.read .client_socket env.request] := by
    intro hl
    apply request_stage_reject
    right; right; right; right; left
    refine ⟨by rw [hr]; rfl, ?_⟩
    rw [hr]
    simp only [ReadRes.ret, List.length_cons] at hl ⊢
    omega
  have hgood : (0x05 :: 0x01 :: 0x00 :: 0x01 :: rest).length = 10 →
      ∃ addr, request_stage cfg env buffer0 =
        Run.prepend [.read .client_socket env.request]
          (connect_stage cfg env 10 (env.request.store buffer0) addr) := by
    intro hl
    match rest, hr, hl with
    | [a, b, c, d, p, q], hr, _ =>
      exact ⟨_, request_stage_ipv4 cfg env buffer0 a b c d p q hr⟩
  refine ⟨⟨?_, ?_⟩, hgood, ?_⟩
  · intro hl
    obtain ⟨addr, he⟩ := hgood hl
    refine ⟨env.socket, ?_⟩
    rw [he]
    simp only [Run.prepend, List.mem_append]
    exact Or.inr (connect_stage_calls_socket cfg env _ _ _)
  · rintro ⟨fd, hfd⟩
    by_contra hl
    rw [hbad hl] at hfd
    simp [fail_reply] at hfd
  · intro hl
    rw [hbad hl]
    rfl

/-- Witness for C5: an eleven-byte IPv4 request is refused. -/
theorem ipv4_request_accepted_iff_ten_bytes_witness :
    ({ sample_env with request := .data [5, 1, 0, 1, 127, 0, 0, 1, 0x1F, 0x90, 0] } : Env).request =
        .data (0x05 :: 0x01 :: 0x00 :: 0x01 :: [127, 0, 0, 1, 0x1F, 0x90, 0]) ∧
      request_stage ⟨[116, 117, 110, 48], 60⟩
          { sample_env with request := .data [5, 1, 0, 1, 127, 0, 0, 1, 0x1F, 0x90, 0] } [] =
        ⟨[.read .client_socket (.data [5, 1, 0, 1, 127, 0, 0, 1, 0x1F, 0x90, 0]),
            .write .client_socket .connect_response [5, 1, 0, 1, 0, 0, 0, 0, 0, 0] 10,
            .close .client_socket],
          .exited EXIT_FAILURE⟩ :=
  ⟨rfl,
    (ipv4_request_accepted_iff_ten_bytes ⟨[116, 117, 110, 48], 60⟩
      { sample_env with request := .data [5, 1, 0, 1, 127, 0, 0, 1, 0x1F, 0x90, 0] } []
      [127, 0, 0, 1, 0x1F, 0x90, 0] rfl).2.2 (by decide)⟩

/-- C6: for a request that starts `05 01 00 03 L`, the decoder goes on to the
name lookup exactly when the message is `7 + L` bytes long; at any other length
the run is the failure reply, `close` and a failing exit, with no lookup and no
`socket` or `connect` call. -/
theorem domain_request_accepted_iff_length (cfg : Config) (env : Env)
    (buffer0 : List Nat) (L : Nat) (rest : List Nat)
    (hr : env.request = .data (0x05 :: 0x01 :: 0x00 :: 0x03 :: L :: rest)) :
    ((0x05 :: 0x01 :: 0x00 :: 0x03 :: L :: rest).length = 7 + L ↔
        ∃ name, Event.gethostbyname name ∈ (request_stage cfg env buffer0).trace) ∧
      ((0x05 :: 0x01 :: 0x00 :: 0x03 :: L :: rest).length ≠ 7 + L →
        request_stage cfg env buffer0 =
          ⟨[.read .client_socket env.request,
              .write .client_socket .connect_response
                [0x05, 0x01, 0x00, 0x01, 0x00, 0x00, 0x00, 0x00, 0x00, 0x00]
                env.failure_write.ret,
              .close .client_socket],
            .exited EXIT_FAILURE⟩) := by
  have hret : env.request.ret = (rest.length : Int) + 5 := by
    rw [hr]; simp only [ReadRes.ret, List.length_cons]; push_cast; ring
  have hb4 : byte_at (env.request.store buffer0) 4 = L := by rw [hr]; rfl
  have hbad : (0x05 :: 0x01 :: 0x00 :: 0x03 :: L :: rest).length ≠ 7 + L →
      request_stage cfg env buffer0 = fail_reply env [.read .client_socket env.request] := by
    intro hl
    apply request_stage_reject
    right; right; right; right; right; left
    refine ⟨by rw [hr]; rfl, ?_⟩
    rw [hb4, hret]
    simp only [List.length_cons] at hl
    omega
  refine ⟨⟨?_, ?_⟩, ?_⟩
  · intro hl
    refine ⟨_, request_stage_domain_lookup cfg env buffer0 ?_ ?_ ?_ ?_ ?_ ?_⟩
    · rw [hret]; omega
    · rw [hr]; rfl
    · rw [hr]; rfl
    · rw [hr]; rfl
    · rw [hr]; rfl
    · rw [hb4, hret]
      simp only [List.length_cons] at hl
      omega
  · rintro ⟨name, hn⟩
    by_contra hl
    rw [hbad hl] at hn
    simp [fail_reply] at hn
  · intro hl
    rw [hbad hl]
    rfl

/-- Witness for C6: a domain request whose length byte says 4 but which carries
three name bytes is refused. -/
theorem domain_request_accepted_iff_length_witness :
    ({ sample_env with request := .data [5, 1, 0, 3, 4, 97, 98, 99, 1, 187] } : Env).request =
        .data (0x05 :: 0x01 :: 0x00 :: 0x03 :: 4 :: [97, 98, 99, 1, 187]) ∧
      request_stage ⟨[116, 117, 110, 48], 60⟩
          { sample_env with request := .data [5, 1, 0, 3, 4, 97, 98, 99, 1, 187] } [] =
        ⟨[.read .client_socket (.data [5, 1, 0, 3, 4, 97, 98, 99, 1, 187]),
            .write .client_socket .connect_response [5, 1, 0, 1, 0, 0, 0, 0, 0, 0] 10,
            .close .client_socket],
          .exited EXIT_FAILURE⟩ :=
  ⟨rfl,
    (domain_request_accepted_iff_length ⟨[116, 117, 110, 48], 60⟩
      { sample_env with request := .data [5, 1, 0, 3, 4, 97, 98, 99, 1, 187] } []
      4 [97, 98, 99, 1, 187] rfl).2 (by decide)⟩

/-- C7: a request message whose byte at offset 3 is neither 1 nor 3 (or that
has no such byte) is refused whatever else it holds: the run is the failure
reply, `close` and a failing exit, with no lookup and no `socket` or `connect`
call. -/
theorem other_address_type_is_refused (cfg : Config) (env : Env)
    (buffer0 msg : List Nat)
    (hr : env.request = .data msg)
    (h1 : msg[3]? ≠ some 0x01)
    (h3 : msg[3]? ≠ some 0x03) :
    request_stage cfg env buffer0 =
      ⟨[.read .client_socket env.request,
          .write .client_socket .connect_response
            [0x05, 0x01, 0x00, 0x01, 0x00, 0x00, 0x00, 0x00, 0x00, 0x00]
            env.failure_write.ret,
          .close .client_socket],
        .exited EXIT_FAILURE⟩ := by
  have hrej : request_stage cfg env buffer0 =
      fail_reply env [.read .client_socket env.request] := by
    apply request_stage_reject
    rcases short_or_five msg with hs | ⟨a, b, c, d, e, rest, hm⟩
    · left
      rw [hr]
      simp only [ReadRes.ret]
      omega
    · subst hm
      right; right; right; right; right; right
      have hb : byte_at (env.request.store buffer0) 3 = d := by rw [hr]; rfl
      rw [hb]
      constructor
      · intro hd; subst hd; exact h1 rfl
      · intro hd; subst hd; exact h3 rfl
  rw [hrej]
  rfl

/-- Witness for C7: an IPv6 request (address type 4) is refused. -/
theorem other_address_type_is_refused_witness :
    ({ sample_env with request := .data [5, 1, 0, 4, 0, 0, 0, 0, 0, 0, 0, 0, 0, 0, 0, 0, 0, 0, 0, 1, 0, 80] }
        : Env).request = .data [5, 1, 0, 4, 0, 0, 0, 0, 0, 0, 0, 0, 0, 0, 0, 0, 0, 0, 0, 1, 0, 80] ∧
      request_stage ⟨[116, 117, 110, 48], 60⟩
          { sample_env with
            request := .data [5, 1, 0, 4, 0, 0, 0, 0, 0, 0, 0, 0, 0, 0, 0, 0, 0, 0, 0, 1, 0, 80] } [] =
        ⟨[.read .client_socket
              (.data [5, 1, 0, 4, 0, 0, 0, 0, 0, 0, 0, 0, 0, 0, 0, 0, 0, 0, 0, 1, 0, 80]),
            .write .client_socket .connect_response [5, 1, 0, 1, 0, 0, 0, 0, 0, 0] 10,
            .close .client_socket],
          .exited EXIT_FAILURE⟩ :=
  ⟨rfl,
    other_address_type_is_refused ⟨[116, 117, 110, 48], 60⟩
      { sample_env with
        request := .data [5, 1, 0, 4, 0, 0, 0, 0, 0, 0, 0, 0, 0, 0, 0, 0, 0, 0, 0, 1, 0, 80] } []
      [5, 1, 0, 4, 0, 0, 0, 0, 0, 0, 0, 0, 0, 0, 0, 0, 0, 0, 0, 1, 0, 80] rfl
      (by decide) (by decide)⟩

/-- C8: whenever the request read fails or delivers fewer than five bytes, or
the message has VER other than 5, a command other than 1, a reserved byte other
than 0, an address type other than 1 and 3, address type 1 with a length other
than 10, or address type 3 with a length other than `7 + L`, the request stage
is exactly: the read, one write of `05 01 00 01 00 00 00 00 00 00` to the
client, `close`, and a failing exit. -/
theorem rejected_request_gets_one_failure_reply (cfg : Config) (env : Env)
    (buffer0 : List Nat)
    (h : env.request.ret < 5 ∨
      ∃ msg, env.request = .data msg ∧
        (msg[0]? ≠ some 0x05 ∨ msg[1]? ≠ some 0x01 ∨ msg[2]? ≠ some 0x00 ∨
          (msg[3]? ≠ some 0x01 ∧ msg[3]? ≠ some 0x03) ∨
          (msg[3]? = some 0x01 ∧ msg.length ≠ 10) ∨
          (msg[3]? = some 0x03 ∧ ∃ L, msg[4]? = some L ∧ msg.length ≠ 7 + L))) :
    request_stage cfg env buffer0 =
      ⟨[.read .client_socket env.request,
          .write .client_socket .connect_response
            [0x05, 0x01, 0x00, 0x01, 0x00, 0x00, 0x00, 0x00, 0x00, 0x00]
            env.failure_write.ret,
          .close .client_socket],
        .exited EXIT_FAILURE⟩ := by
  have hrej : request_stage cfg env buffer0 =
      fail_reply env [.read .client_socket env.request] := by
    apply request_stage_reject
    rcases h with h | ⟨msg, hr, h⟩
    · exact Or.inl h
    · rcases short_or_five msg with hs | ⟨a, b, c, d, e, rest, hm⟩
      · left
        rw [hr]
        simp only [ReadRes.ret]
        omega
      · subst hm
        have hb0 : byte_at (env.request.store buffer0) 0 = a := by rw [hr]; rfl
        have hb1 : byte_at (env.request.store buffer0) 1 = b := by rw [hr]; rfl
        have hb2 : byte_at (env.request.store buffer0) 2 = c := by rw [hr]; rfl
        have hb3 : byte_at (env.request.store buffer0) 3 = d := by rw [hr]; rfl
        have hb4 : byte_at (env.request.store buffer0) 4 = e := by rw [hr]; rfl
        have hret : env.request.ret = (rest.length : Int) + 5 := by
          rw [hr]; simp only [ReadRes.ret, List.length_cons]; push_cast; ring
        rw [hb0, hb1, hb2, hb3, hb4, hret]
        right
        rcases h with h | h | h | h | h | h
        · left; intro ha; subst ha; exact h rfl
        · right; left; intro ha; subst ha; exact h rfl
        · right; right; left; intro ha; subst ha; exact h rfl
        · right; right; right; right; right
          constructor
          · intro hd; subst hd; exact h.1 rfl
          · intro hd; subst hd; exact h.2 rfl
        · right; right; right; left
          obtain ⟨hd, hl⟩ := h
          simp only [List.getElem?_cons_succ, List.getElem?_cons_zero, Option.some.injEq] at hd
          simp only [List.length_cons] at hl
          exact ⟨hd, by omega⟩
        · right; right; right; right; left
          obtain ⟨hd, L, hL, hl⟩ := h
          simp only [List.getElem?_cons_succ, List.getElem?_cons_zero, Option.some.injEq]
            at hd hL
          simp only [List.length_cons] at hl
          subst hL
          exact ⟨hd, by omega⟩
  rw [hrej]
  rfl

/-- Witness for C8: a BIND request (command 2) gets the failure reply. -/
theorem rejected_request_gets_one_failure_reply_witness :
    (∃ msg, ({ sample_env with request := .data [5, 2, 0, 1, 127, 0, 0, 1, 0, 80] } : Env).request
        = .data msg ∧ msg[1]? ≠ some 0x01) ∧
      request_stage ⟨[116, 117, 110, 48], 60⟩
          { sample_env with request := .data [5, 2, 0, 1, 127, 0, 0, 1, 0, 80] } [] =
        ⟨[.read .client_socket (.data [5, 2, 0, 1, 127, 0, 0, 1, 0, 80]),
            .write .client_socket .connect_response [5, 1, 0, 1, 0, 0, 0, 0, 0, 0] 10,
            .close .client_socket],
          .exited EXIT_FAILURE⟩ :=
  ⟨⟨_, rfl, by decide⟩,
    rejected_request_gets_one_failure_reply ⟨[116, 117, 110, 48], 60⟩
      { sample_env with request := .data [5, 2, 0, 1, 127, 0, 0, 1, 0, 80] } []
      (Or.inr ⟨_, rfl, Or.inr (Or.inl (by decide))⟩)⟩

/-! ## Connect replies -/

/-- Every call of the write loop is a `write` from `buffer` to the receiver or
a `close` of one of the two sockets. -/
theorem write_loop_events (P : Event → Prop) (receiver : Fd) (buffer : List Nat) (total : Nat)
    (hwrite : ∀ data ret, P (.write receiver .buffer data ret))
    (hclose : ∀ fd, P (.close fd)) :
    ∀ (ws : List WriteRes) (written : Nat) (ret : Int),
      ∀ e ∈ (write_loop receiver buffer total written ret ws).1, P e := by
  intro ws
  induction ws with
  | nil =>
    intro written ret
    unfold write_loop
    by_cases hlt : written < total
    · simp [hlt]
    · simp [hlt]
  | cons w ws ih =>
    intro written ret
    unfold write_loop
    by_cases hlt : written < total
    · simp only [if_pos hlt]
      by_cases hle : w.ret ≤ 0
      · simp only [if_pos hle]
        by_cases hint : w.ret < 0 ∧ w.errno = EINTR
        · simp only [if_pos hint, List.forall_mem_cons]
          exact ⟨hwrite _ _, ih _ _⟩
        · simp only [if_neg hint, List.forall_mem_cons]
          exact ⟨hwrite _ _, hclose _, hclose _, by simp⟩
      · simp only [if_neg hle, List.forall_mem_cons]
        exact ⟨hwrite _ _, ih _ _⟩
    · simp [hlt]

/-- Every call of the relay loop is a `select` with the configured timeout, a
`read`, a `write` from `buffer`, or a `close`. -/
theorem relay_events (P : Event → Prop) (cfg : Config)
    (hselect : ∀ r, P (.select cfg.timeout_seconds 0 r))
    (hread : ∀ fd r, P (.read fd r))
    (hwrite : ∀ fd data ret, P (.write fd .buffer data ret))
    (hclose : ∀ fd, P (.close fd)) :
    ∀ (ss : List SelectRes) (ret : Int) (buffer : List Nat) (rs : List ReadRes)
      (ws : List WriteRes),
      ∀ e ∈ (relay cfg ret buffer ss rs ws).trace, P e := by
  intro ss
  induction ss with
  | nil =>
    intro ret buffer rs ws
    simp [relay]
  | cons s ss ih =>
    intro ret buffer rs ws
    unfold relay
    by_cases h1 : s.res ≤ 0
    · simp only [if_pos h1]
      by_cases h2 : ret < 0 ∧ s.errno = EINTR
      · simp only [if_pos h2, Run.prepend, List.forall_mem_append, List.forall_mem_cons]
        exact ⟨⟨hselect _, by simp⟩, ih _ _ _ _⟩
      · simp only [if_neg h2, List.forall_mem_cons]
        exact ⟨hselect _, hclose _, hclose _, by simp⟩
    · simp only [if_neg h1]
      cases rs with
      | nil =>
        simp only [List.forall_mem_cons]
        exact ⟨hselect _, by simp⟩
      | cons r rs =>
        simp only []
        by_cases h2 : r.ret ≤ 0
        · simp only [if_pos h2]
          by_cases h3 : r.ret < 0 ∧ r.errno = EINTR
          · simp only [if_pos h3, Run.prepend, List.forall_mem_append, List.forall_mem_cons]
            exact ⟨⟨hselect _, hread _ _, by simp⟩, ih _ _ _ _⟩
          · simp only [if_neg h3, List.forall_mem_cons]
            exact ⟨hselect _, hread _ _, hclose _, hclose _, by simp⟩
        · simp only [if_neg h2]
          have hw := write_loop_events P
            (if (if s.client_isset = true then Fd.client_socket else Fd.remote_socket)
                = Fd.client_socket then Fd.remote_socket else Fd.client_socket)
            (r.store buffer) r.ret.toNat (hwrite _) hclose ws 0 r.ret
          revert hw
          cases write_loop
            (if (if s.client_isset = true then Fd.client_socket else Fd.remote_socket)
                = Fd.client_socket then Fd.remote_socket else Fd.client_socket)
            (r.store buffer) r.ret.toNat 0 r.ret ws with
          | mk evs res =>
            cases res with
            | done ret' ws' =>
              intro hw
              simp only [Run.prepend, List.forall_mem_append, List.forall_mem_cons]
              exact ⟨⟨hselect _, hread _ _, hw⟩, ih _ _ _ _⟩
            | exited code =>
              intro hw
              simp only [List.forall_mem_cons]
              exact ⟨hselect _, hread _ _, hw⟩
            | awaiting_write =>
              intro hw
              simp only [List.forall_mem_cons]
              exact ⟨hselect _, hread _ _, hw⟩

theorem relay_reply_ok (cfg : Config) (env : Env) (ret : Int) (buffer : List Nat)
    (ss : List SelectRes) (rs : List ReadRes) (ws : List WriteRes) :
    ∀ e ∈ (relay cfg ret buffer ss rs ws).trace, reply_ok env e :=
  relay_events (reply_ok env) cfg (fun _ => trivial) (fun _ _ => trivial)
    (fun _ _ _ => trivial) (fun _ => trivial) ss ret buffer rs ws

theorem fail_reply_ok (env : Env) (before : List Event)
    (h : ∀ e ∈ before, reply_ok env e) :
    ∀ e ∈ (fail_reply env before).trace, reply_ok env e := by
  simp only [fail_reply, List.forall_mem_append, List.forall_mem_cons]
  refine ⟨h, ⟨rfl, Or.inl rfl⟩, trivial, by simp⟩

theorem connect_stage_reply_ok (cfg : Config) (env : Env) (ret : Int) (buffer : List Nat)
    (addr : sockaddr_in) :
    ∀ e ∈ (connect_stage cfg env ret buffer addr).trace, reply_ok env e := by
  unfold connect_stage
  simp only []
  by_cases h1 : env.socket < 0
  · simp only [if_pos h1]
    apply fail_reply_ok
    simp [reply_ok]
  · by_cases h2 : env.connect < 0
    · simp only [if_neg h1, if_pos h2]
      apply fail_reply_ok
      simp [reply_ok]
    · simp only [if_neg h1, if_neg h2]
      cases hn : env.getsockname .client_socket with
      | none =>
        simp only []
        apply fail_reply_ok
        simp [reply_ok]
      | some la =>
        simp only []
        by_cases h3 : env.reply_write.ret ≠ 10
        · simp only [if_pos h3, List.forall_mem_cons]
          refine ⟨trivial, trivial, trivial, trivial, ⟨rfl, Or.inr ⟨la, hn, rfl⟩⟩, trivial,
            by simp⟩
        · simp only [if_neg h3, Run.prepend, List.forall_mem_append, List.forall_mem_cons]
          refine ⟨⟨trivial, trivial, trivial, trivial, ⟨rfl, Or.inr ⟨la, hn, rfl⟩⟩, by simp⟩,
            relay_reply_ok cfg env _ _ _ _ _⟩

theorem request_stage_reply_ok (cfg : Config) (env : Env) (buffer0 : List Nat) :
    ∀ e ∈ (request_stage cfg env buffer0).trace, reply_ok env e := by
  have hread : ∀ e ∈ [Event.read .client_socket env.request], reply_ok env e := by
    simp [reply_ok]
  unfold request_stage
  simp only []
  generalize c_string (memcpy (List.replicate 256 0) (env.request.store buffer0) 5
    (byte_at (env.request.store buffer0) 4)) = name
  split_ifs
  · exact fail_reply_ok env _ hread
  · exact fail_reply_ok env _ hread
  · simp only [Run.prepend, List.forall_mem_append]
    exact ⟨hread, connect_stage_reply_ok cfg env _ _ _⟩
  · exact fail_reply_ok env _ hread
  · have hhost : ∀ e ∈ [Event.read .client_socket env.request, Event.gethostbyname name],
        reply_ok env e := by
      simp [reply_ok]
    cases env.gethostbyname name with
    | none => exact fail_reply_ok env _ hhost
    | some host =>
      simp only []
      by_cases hf : host.h_addrtype ≠ AF_INET
      · simp only [if_pos hf]
        exact fail_reply_ok env _ hhost
      · simp only [if_neg hf]
        cases host.h_addr_list with
        | nil => exact fail_reply_ok env _ hhost
        | cons x xs =>
          simp only [Run.prepend, List.forall_mem_append]
          exact ⟨hhost, connect_stage_reply_ok cfg env _ _ _⟩
  · exact fail_reply_ok env _ hread

theorem handler_reply_ok (cfg : Config) (env : Env) (buffer0 : List Nat) :
    ∀ e ∈ (handler cfg env buffer0).trace, reply_ok env e := by
  unfold handler
  simp only []
  split_ifs <;>
    simp only [Run.prepend, List.forall_mem_append, List.forall_mem_cons] <;>
    first
      | exact ⟨⟨trivial, trivial, by simp⟩, request_stage_reply_ok cfg env _⟩
      | simp [reply_ok]

/-- C9: every `write` of `connect_response` in a run of the handler goes to the
client and carries exactly ten bytes `05 status 00 01 addr(4) port(2)`: either
status 1 with address and port all zero, or status 0 with the address and port
bytes, in memory (network) order, of the local address that `getsockname`
reports for `client_socket`. -/
theorem connect_reply_layout (cfg : Config) (env : Env) (buffer0 : List Nat)
    (fd : Fd) (data : List Nat) (ret : Int)
    (h : Event.write fd .connect_response data ret ∈ (handler cfg env buffer0).trace) :
    fd = .client_socket ∧ data.length = 10 ∧
      ∃ status a0 a1 a2 a3 p0 p1,
        data = [0x05, status, 0x00, 0x01, a0, a1, a2, a3, p0, p1] ∧
        ((status = 0x01 ∧ (a0, a1, a2, a3) = (0, 0, 0, 0) ∧ (p0, p1) = (0, 0)) ∨
          (status = 0x00 ∧
            ∃ la, env.getsockname .client_socket = some la ∧
              (a0, a1, a2, a3) = la.sin_addr ∧ (p0, p1) = la.sin_port ∧
              256 * p0 + p1 = ntohs la.sin_port)) := by
  have hok := handler_reply_ok cfg env buffer0 _ h
  obtain ⟨hfd, hdata⟩ := hok
  refine ⟨hfd, ?_, ?_⟩
  · rcases hdata with hd | ⟨la, _, hd⟩ <;> rw [hd] <;> rfl
  · rcases hdata with hd | ⟨la, hla, hd⟩
    · exact ⟨1, 0, 0, 0, 0, 0, 0, hd, Or.inl ⟨rfl, rfl, rfl⟩⟩
    · exact ⟨0, _, _, _, _, _, _, hd, Or.inr ⟨rfl, la, hla, rfl, rfl, rfl⟩⟩

/-- Witness for C9: the success reply of the sample connection carries
127.0.0.1 and port 1080, the local address of the client socket. -/
theorem connect_reply_layout_witness :
    Event.write .client_socket .connect_response [5, 0, 0, 1, 127, 0, 0, 1, 4, 56] 10 ∈
        (handler ⟨[116, 117, 110, 48], 60⟩ sample_env []).trace ∧
      ∃ status a0 a1 a2 a3 p0 p1,
        [5, 0, 0, 1, 127, 0, 0, 1, 4, 56] = [0x05, status, 0x00, 0x01, a0, a1, a2, a3, p0, p1] ∧
        ((status = 0x01 ∧ (a0, a1, a2, a3) = (0, 0, 0, 0) ∧ (p0, p1) = (0, 0)) ∨
          (status = 0x00 ∧
            ∃ la, sample_env.getsockname .client_socket = some la ∧
              (a0, a1, a2, a3) = la.sin_addr ∧ (p0, p1) = la.sin_port ∧
              256 * p0 + p1 = ntohs la.sin_port)) :=
  ⟨by decide,
    (connect_reply_layout ⟨[116, 117, 110, 48], 60⟩ sample_env [] .client_socket
      [5, 0, 0, 1, 127, 0, 0, 1, 4, 56] 10 (by decide)).2.2⟩

/-! ## Byte preservation in the relay -/

/-- The trace of the write loop is a sequence of `write` calls from `buffer` to
the receiver; when the loop exits the process, the sequence ends with a write
that returned at most 0 and was not interrupted, followed by the two `close`
calls, and the exit code is success exactly when that write returned 0. -/
theorem write_loop_shape (receiver : Fd) (buffer : List Nat) (total : Nat) :
    ∀ (ws : List WriteRes) (written : Nat) (ret : Int),
      ∃ writes : List Event,
        (∀ e ∈ writes, ∃ data n, e = Event.write receiver .buffer data n) ∧
        (((∃ ret2 ws2, (write_loop receiver buffer total written ret ws).2 = .done ret2 ws2) ∧
            (write_loop receiver buffer total written ret ws).1 = writes) ∨
          ((write_loop receiver buffer total written ret ws).2 = .awaiting_write ∧
            (write_loop receiver buffer total written ret ws).1 = writes) ∨
          (∃ data w, WriteRes.ret w ≤ 0 ∧ ¬ (WriteRes.ret w < 0 ∧ WriteRes.errno w = EINTR) ∧
            (write_loop receiver buffer total written ret ws).2 =
              .exited (if WriteRes.ret w = 0 then EXIT_SUCCESS else EXIT_FAILURE) ∧
            (write_loop receiver buffer total written ret ws).1 =
              writes ++ [Event.write receiver .buffer data (WriteRes.ret w),
                .close .client_socket, .close .remote_socket])) := by
  intro ws
  induction ws with
  | nil =>
    intro written ret
    unfold write_loop
    refine ⟨[], by simp, ?_⟩
    by_cases hlt : written < total
    · simp [hlt]
    · simp [hlt]
  | cons w ws ih =>
    intro written ret
    unfold write_loop
    by_cases hlt : written < total
    · simp only [if_pos hlt]
      by_cases hle : w.ret ≤ 0
      · simp only [if_pos hle]
        by_cases hint : w.ret < 0 ∧ w.errno = EINTR
        · simp only [if_pos hint]
          obtain ⟨writes, hw, hshape⟩ := ih written w.ret
          refine ⟨Event.write receiver .buffer ((buffer.drop written).take (total - written)) w.ret
            :: writes, ?_, ?_⟩
          · simp only [List.forall_mem_cons]
            exact ⟨⟨_, _, rfl⟩, hw⟩
          · rcases hshape with ⟨hd, he⟩ | ⟨hd, he⟩ | ⟨data, w2, h1, h2, hd, he⟩
            · exact Or.inl ⟨hd, by rw [he]⟩
            · exact Or.inr (Or.inl ⟨hd, by rw [he]⟩)
            · exact Or.inr (Or.inr ⟨data, w2, h1, h2, hd, by rw [he]; rfl⟩)
        · simp only [if_neg hint]
          refine ⟨[], by simp, Or.inr (Or.inr ⟨_, w, hle, hint, rfl, rfl⟩)⟩
      · simp only [if_neg hle]
        obtain ⟨writes, hw, hshape⟩ := ih (written + w.ret.toNat) w.ret
        refine ⟨Event.write receiver .buffer ((buffer.drop written).take (total - written)) w.ret
            :: writes, ?_, ?_⟩
        · simp only [List.forall_mem_cons]
          exact ⟨⟨_, _, rfl⟩, hw⟩
        · rcases hshape with ⟨hd, he⟩ | ⟨hd, he⟩ | ⟨data, w2, h1, h2, hd, he⟩
          · exact Or.inl ⟨hd, by rw [he]⟩
          · exact Or.inr (Or.inl ⟨hd, by rw [he]⟩)
          · exact Or.inr (Or.inr ⟨data, w2, h1, h2, hd, by rw [he]; rfl⟩)
    · simp only [if_neg hlt]
      exact ⟨[], by simp, Or.inl ⟨⟨_, _, rfl⟩, rfl⟩⟩

/-- Induction over the runs of the relay loop: a property of trace and outcome
holds of every run if it holds of the empty run and is kept by each way an
iteration can go (interrupted or failed `select`, interrupted, empty or failed
`read`, a chunk written out in full, a fatal `write`, results running out). -/
theorem relay_run_induct (cfg : Config) (Q : List Event → Outcome → Prop)
    (h_idle : Q [] .awaiting_select)
    (h_retry : ∀ s t o, SelectRes.res s ≤ 0 → SelectRes.errno s = EINTR → Q t o →
      Q (.select cfg.timeout_seconds 0 s :: t) o)
    (h_wait_end : ∀ s, SelectRes.res s ≤ 0 →
      Q [.select cfg.timeout_seconds 0 s, .close .client_socket, .close .remote_socket]
        (.exited EXIT_FAILURE))
    (h_no_read : ∀ s, 0 < SelectRes.res s → Q [.select cfg.timeout_seconds 0 s] .awaiting_read)
    (h_read_retry : ∀ s fd r t o, 0 < SelectRes.res s → ReadRes.ret r < 0 →
      ReadRes.errno r = EINTR → Q t o →
      Q (.select cfg.timeout_seconds 0 s :: .read fd r :: t) o)
    (h_read_end : ∀ s fd r, 0 < SelectRes.res s → ReadRes.ret r ≤ 0 →
      ¬ (ReadRes.ret r < 0 ∧ ReadRes.errno r = EINTR) →
      Q [.select cfg.timeout_seconds 0 s, .read fd r, .close .client_socket,
          .close .remote_socket]
        (.exited (if ReadRes.ret r = 0 then EXIT_SUCCESS else EXIT_FAILURE)))
    (h_chunk : ∀ s fd fd2 bytes writes t o, 0 < SelectRes.res s → bytes ≠ [] →
      (∀ e ∈ writes, ∃ data n, e = Event.write fd2 .buffer data n) → Q t o →
      Q (.select cfg.timeout_seconds 0 s :: .read fd (.data bytes) :: (writes ++ t)) o)
    (h_write_end : ∀ s fd fd2 bytes writes data w, 0 < SelectRes.res s → bytes ≠ [] →
      (∀ e ∈ writes, ∃ data n, e = Event.write fd2 .buffer data n) →
      WriteRes.ret w ≤ 0 → ¬ (WriteRes.ret w < 0 ∧ WriteRes.errno w = EINTR) →
      Q (.select cfg.timeout_seconds 0 s :: .read fd (.data bytes) ::
          (writes ++ [Event.write fd2 .buffer data (WriteRes.ret w),
            .close .client_socket, .close .remote_socket]))
        (.exited (if WriteRes.ret w = 0 then EXIT_SUCCESS else EXIT_FAILURE)))
    (h_no_write : ∀ s fd fd2 bytes writes, 0 < SelectRes.res s → bytes ≠ [] →
      (∀ e ∈ writes, ∃ data n, e = Event.write fd2 .buffer data n) →
      Q (.select cfg.timeout_seconds 0 s :: .read fd (.data bytes) :: writes)
        .awaiting_write) :
    ∀ (ss : List SelectRes) (ret : Int) (buffer : List Nat) (rs : List ReadRes)
      (ws : List WriteRes),
      Q (relay cfg ret buffer ss rs ws).trace (relay cfg ret buffer ss rs ws).outcome := by
  intro ss
  induction ss with
  | nil =>
    intro ret buffer rs ws
    simp only [relay]
    exact h_idle
  | cons s ss ih =>
    intro ret buffer rs ws
    unfold relay
    by_cases h1 : s.res ≤ 0
    · simp only [if_pos h1]
      by_cases h2 : ret < 0 ∧ s.errno = EINTR
      · simp only [if_pos h2, Run.prepend, List.singleton_append]
        exact h_retry s _ _ h1 h2.2 (ih ret buffer rs ws)
      · simp only [if_neg h2]
        exact h_wait_end s h1
    · simp only [if_neg h1]
      have h1p : 0 < s.res := by omega
      cases rs with
      | nil => exact h_no_read s h1p
      | cons r rs =>
        simp only []
        by_cases h2 : r.ret ≤ 0
        · simp only [if_pos h2]
          by_cases h3 : r.ret < 0 ∧ r.errno = EINTR
          · simp only [if_pos h3, Run.prepend, List.cons_append, List.nil_append]
            exact h_read_retry s _ r _ _ h1p h3.1 h3.2 (ih _ _ _ _)
          · simp only [if_neg h3]
            exact h_read_end s _ r h1p h2 h3
        · simp only [if_neg h2]
          cases r with
          | error e => exact absurd (by simp [ReadRes.ret]) h2
          | data bytes =>
            have hb : bytes ≠ [] := by
              intro hb
              apply h2
              simp [ReadRes.ret, hb]
            obtain ⟨writes, hw, hshape⟩ := write_loop_shape
              (if (if s.client_isset = true then Fd.client_socket else Fd.remote_socket)
                  = Fd.client_socket then Fd.remote_socket else Fd.client_socket)
              ((ReadRes.data bytes).store buffer) (ReadRes.data bytes).ret.toNat ws 0
              (ReadRes.data bytes).ret
            revert hshape
            cases write_loop
              (if (if s.client_isset = true then Fd.client_socket else Fd.remote_socket)
                  = Fd.client_socket then Fd.remote_socket else Fd.client_socket)
              ((ReadRes.data bytes).store buffer) (ReadRes.data bytes).ret.toNat 0
              (ReadRes.data bytes).ret ws with
            | mk evs res =>
              intro hshape
              rcases hshape with ⟨⟨ret2, ws2, hd⟩, he⟩ | ⟨hd, he⟩ | ⟨data, w, hw1, hw2, hd, he⟩
              · simp only at hd he
                subst hd he
                simp only [Run.prepend, List.cons_append]
                exact h_chunk s _ _ bytes evs _ _ h1p hb hw (ih _ _ _ _)
              · simp only at hd he
                subst hd he
                exact h_no_write s _ _ bytes evs h1p hb hw
              · simp only at hd he
                subst hd he
                exact h_write_end s _ _ bytes writes data w h1p hb hw hw1 hw2

/-! ## End of the session in the relay -/

/-- C13: in every run of the relay loop, once a `read` from either socket
returns zero bytes the run ends there: the trace ends with the `select`, that
`read`, `close(client_socket)` and `close(remote_socket)`, with no further
`select`, `read` or `write`, and the process exits with `EXIT_SUCCESS`. -/
theorem zero_read_ends_session (cfg : Config) (ret : Int) (buffer : List Nat)
    (selects : List SelectRes) (reads : List ReadRes) (writes : List WriteRes) (fd : Fd)
    (h : Event.read fd (.data []) ∈ (relay cfg ret buffer selects reads writes).trace) :
    (relay cfg ret buffer selects reads writes).outcome = .exited EXIT_SUCCESS ∧
      ∃ pre s, (relay cfg ret buffer selects reads writes).trace =
        pre ++ [.select cfg.timeout_seconds 0 s, .read fd (.data []),
          .close .client_socket, .close .remote_socket] := by
  revert h
  refine relay_run_induct cfg (fun (t : List Event) (o : Outcome) =>
    Event.read fd (.data []) ∈ t →
    o = Outcome.exited EXIT_SUCCESS ∧ ∃ (pre : List Event) (s : SelectRes), t =
      pre ++ [Event.select cfg.timeout_seconds 0 s, Event.read fd (.data []),
        Event.close .client_socket, Event.close .remote_socket])
    ?_ ?_ ?_ ?_ ?_ ?_ ?_ ?_ ?_ selects ret buffer reads writes
  · intro h
    simp at h
  · intro s t o _ _ ih h
    simp only [List.mem_cons] at h
    rcases h with h | h
    · cases h
    · obtain ⟨ho, pre, s2, ht⟩ := ih h
      exact ⟨ho, .select cfg.timeout_seconds 0 s :: pre, s2, by rw [ht]; rfl⟩
  · intro s _ h
    simp at h
  · intro s _ h
    simp at h
  · intro s fd2 r t o _ hr _ ih h
    simp only [List.mem_cons] at h
    rcases h with h | h | h
    · cases h
    · cases h
      simp [ReadRes.ret] at hr
    · obtain ⟨ho, pre, s2, ht⟩ := ih h
      exact ⟨ho, .select cfg.timeout_seconds 0 s :: .read fd2 r :: pre, s2, by rw [ht]; rfl⟩
  · intro s fd2 r _ _ _ h
    simp only [List.mem_cons] at h
    rcases h with h | h | h | h | h
    · cases h
    · cases h
      exact ⟨by simp [ReadRes.ret], [], s, rfl⟩
    · cases h
    · cases h
    · simp at h
  · intro s fd2 fd3 bytes writes t o _ hb hw ih h
    simp only [List.mem_cons, List.mem_append] at h
    rcases h with h | h | h | h
    · cases h
    · cases h
      exact absurd rfl hb
    · obtain ⟨data, n, he⟩ := hw _ h
      cases he
    · obtain ⟨ho, pre, s2, ht⟩ := ih h
      refine ⟨ho, .select cfg.timeout_seconds 0 s :: .read fd2 (.data bytes) :: (writes ++ pre),
        s2, ?_⟩
      rw [ht]
      simp
  · intro s fd2 fd3 bytes writes data w _ hb hw _ _ h
    simp only [List.mem_cons, List.mem_append] at h
    rcases h with h | h | h | h | h | h | h
    · cases h
    · cases h
      exact absurd rfl hb
    · obtain ⟨data, n, he⟩ := hw _ h
      cases he
    · cases h
    · cases h
    · cases h
    · simp at h
  · intro s fd2 fd3 bytes writes _ hb hw h
    simp only [List.mem_cons] at h
    rcases h with h | h | h
    · cases h
    · cases h
      exact absurd rfl hb
    · obtain ⟨data, n, he⟩ := hw _ h
      cases he

/-- Witness for C13: the target closes first; the session ends at once. -/
theorem zero_read_ends_session_witness :
    Event.read .remote_socket (.data []) ∈
        (relay ⟨[116, 117, 110, 48], 60⟩ 10 [] [.ready 0 false, .ready 0 true]
          [.data [], .data [1]] [.ok 1]).trace ∧
      (relay ⟨[116, 117, 110, 48], 60⟩ 10 [] [.ready 0 false, .ready 0 true]
          [.data [], .data [1]] [.ok 1]).outcome = .exited EXIT_SUCCESS ∧
      (relay ⟨[116, 117, 110, 48], 60⟩ 10 [] [.ready 0 false, .ready 0 true]
          [.data [], .data [1]] [.ok 1]).trace =
        [.select 60 0 (.ready 0 false), .read .remote_socket (.data []),
          .close .client_socket, .close .remote_socket] :=
  ⟨by decide,
    (zero_read_ends_session ⟨[116, 117, 110, 48], 60⟩ 10 [] [.ready 0 false, .ready 0 true]
      [.data [], .data [1]] [.ok 1] .remote_socket (by decide)).1,
    by decide⟩

/-- C14: in every run of the relay loop every `select` is called with the
timeout `timeout_seconds` seconds and 0 microseconds, and once a `select`
returns 0 the run ends there: the trace ends with that `select`,
`close(client_socket)` and `close(remote_socket)`, and the process exits with
`EXIT_FAILURE`. -/
theorem idle_timeout_ends_session (cfg : Config) (ret : Int) (buffer : List Nat)
    (selects : List SelectRes) (reads : List ReadRes) (writes : List WriteRes) :
    (∀ tv_sec tv_usec r,
        Event.select tv_sec tv_usec r ∈ (relay cfg ret buffer selects reads writes).trace →
        tv_sec = cfg.timeout_seconds ∧ tv_usec = 0) ∧
      (∀ tv_sec tv_usec,
        Event.select tv_sec tv_usec .timeout ∈
          (relay cfg ret buffer selects reads writes).trace →
        (relay cfg ret buffer selects reads writes).outcome = .exited EXIT_FAILURE ∧
          ∃ pre, (relay cfg ret buffer selects reads writes).trace =
            pre ++ [.select cfg.timeout_seconds 0 .timeout,
              .close .client_socket, .close .remote_socket]) := by
  have hall : ∀ tv_sec tv_usec r,
      Event.select tv_sec tv_usec r ∈ (relay cfg ret buffer selects reads writes).trace →
      tv_sec = cfg.timeout_seconds ∧ tv_usec = 0 := by
    intro tv_sec tv_usec r hm
    have h := relay_events
      (fun e => ∀ a b x, e = Event.select a b x → a = cfg.timeout_seconds ∧ b = 0) cfg
      (fun _ a b x he => by cases he; exact ⟨rfl, rfl⟩)
      (fun _ _ a b x he => by cases he)
      (fun _ _ _ a b x he => by cases he)
      (fun _ a b x he => by cases he)
      selects ret buffer reads writes _ hm
    exact h tv_sec tv_usec r rfl
  refine ⟨hall, ?_⟩
  intro tv_sec tv_usec hm
  obtain ⟨h1, h2⟩ := hall tv_sec tv_usec _ hm
  subst h1 h2
  revert hm
  refine relay_run_induct cfg (fun (t : List Event) (o : Outcome) =>
    Event.select cfg.timeout_seconds 0 .timeout ∈ t →
    o = Outcome.exited EXIT_FAILURE ∧ ∃ (pre : List Event), t =
      pre ++ [Event.select cfg.timeout_seconds 0 .timeout,
        Event.close .client_socket, Event.close .remote_socket])
    ?_ ?_ ?_ ?_ ?_ ?_ ?_ ?_ ?_ selects ret buffer reads writes
  · intro h
    simp at h
  · intro s t o _ he ih h
    simp only [List.mem_cons] at h
    rcases h with h | h
    · cases h
      simp [SelectRes.errno, EINTR] at he
    · obtain ⟨ho, pre, ht⟩ := ih h
      exact ⟨ho, .select cfg.timeout_seconds 0 s :: pre, by rw [ht]; rfl⟩
  · intro s _ h
    simp only [List.mem_cons] at h
    rcases h with h | h | h | h
    · cases h
      exact ⟨rfl, [], rfl⟩
    · cases h
    · cases h
    · simp at h
  · intro s hs h
    simp only [List.mem_singleton] at h
    cases h
    simp [SelectRes.res] at hs
  · intro s fd2 r t o hs _ _ ih h
    simp only [List.mem_cons] at h
    rcases h with h | h | h
    · cases h
      simp [SelectRes.res] at hs
    · cases h
    · obtain ⟨ho, pre, ht⟩ := ih h
      exact ⟨ho, .select cfg.timeout_seconds 0 s :: .read fd2 r :: pre, by rw [ht]; rfl⟩
  · intro s fd2 r hs _ _ h
    simp only [List.mem_cons] at h
    rcases h with h | h | h | h | h
    · cases h
      simp [SelectRes.res] at hs
    · cases h
    · cases h
    · cases h
    · simp at h
  · intro s fd2 fd3 bytes writes t o hs _ hw ih h
    simp only [List.mem_cons, List.mem_append] at h
    rcases h with h | h | h | h
    · cases h
      simp [SelectRes.res] at hs
    · cases h
    · obtain ⟨data, n, he⟩ := hw _ h
      cases he
    · obtain ⟨ho, pre, ht⟩ := ih h
      refine ⟨ho, .select cfg.timeout_seconds 0 s :: .read fd2 (.data bytes) :: (writes ++ pre),
        ?_⟩
      rw [ht]
      simp
  · intro s fd2 fd3 bytes writes data w hs _ hw _ _ h
    simp only [List.mem_cons, List.mem_append] at h
    rcases h with h | h | h | h | h | h | h
    · cases h
      simp [SelectRes.res] at hs
    · cases h
    · obtain ⟨data, n, he⟩ := hw _ h
      cases he
    · cases h
    · cases h
    · cases h
    · simp at h
  · intro s fd2 fd3 bytes writes hs _ hw h
    simp only [List.mem_cons] at h
    rcases h with h | h | h
    · cases h
      simp [SelectRes.res] at hs
    · cases h
    · obtain ⟨data, n, he⟩ := hw _ h
      cases he

/-- Witness for C14: one chunk is relayed, then the wait expires. -/
theorem idle_timeout_ends_session_witness :
    Event.select 60 0 .timeout ∈
        (relay ⟨[116, 117, 110, 48], 60⟩ 10 [] [.ready 0 true, .timeout, .ready 0 true]
          [.data [1, 2], .data [3]] [.ok 2, .ok 1]).trace ∧
      (relay ⟨[116, 117, 110, 48], 60⟩ 10 [] [.ready 0 true, .timeout, .ready 0 true]
          [.data [1, 2], .data [3]] [.ok 2, .ok 1]).outcome = .exited EXIT_FAILURE ∧
      (relay ⟨[116, 117, 110, 48], 60⟩ 10 [] [.ready 0 true, .timeout, .ready 0 true]
          [.data [1, 2], .data [3]] [.ok 2, .ok 1]).trace =
        [.select 60 0 (.ready 0 true), .read .client_socket (.data [1, 2]),
          .write .remote_socket .buffer [1, 2] 2, .select 60 0 .timeout,
          .close .client_socket, .close .remote_socket] :=
  ⟨by decide,
    ((idle_timeout_ends_session ⟨[116, 117, 110, 48], 60⟩ 10 []
      [.ready 0 true, .timeout, .ready 0 true] [.data [1, 2], .data [3]] [.ok 2, .ok 1]).2
      60 0 (by decide)).1,
    by decide⟩

/-- C11, the code at the failing input: the first `select` of the relay fails
with `EINTR` while `ret` still holds the length of the request (10), so the
test `ret < 0 && errno == EINTR` of line 230 is false; the handler closes both
sockets and exits with `EXIT_FAILURE` instead of waiting again. -/
theorem interrupted_first_wait_ends_session :
    handler ⟨[116, 117, 110, 48], 60⟩ env_select_interrupted [] =
      ⟨[.read .client_socket (.data [5, 1, 0]),
          .write .client_socket .method_response [0x05, 0x00] 2,
          .read .client_socket (.data [5, 1, 0, 1, 127, 0, 0, 1, 0x1F, 0x90]),
          .socket 5,
          .setsockopt [116, 117, 110, 48] 5 0,
          .connect ⟨AF_INET, (0x1F, 0x90), (127, 0, 0, 1)⟩ 0,
          .getsockname .client_socket,
          .write .client_socket .connect_response [5, 0, 0, 1, 127, 0, 0, 1, 4, 56] 10,
          .select 60 0 (.error EINTR),
          .close .client_socket,
          .close .remote_socket],
        .exited EXIT_FAILURE⟩ := by
  decide

theorem prepend_prepend (a b : List Event) (r : Run) :
    Run.prepend a (Run.prepend b r) = Run.prepend (a ++ b) r := by
  simp [Run.prepend]

/-- The connection stage ends in a failing exit or enters the relay loop. -/
theorem connect_stage_cases (cfg : Config) (env : Env) (ret : Int) (buffer : List Nat)
    (addr : sockaddr_in) :
    (connect_stage cfg env ret buffer addr).outcome = .exited EXIT_FAILURE ∨
      ∃ pre, connect_stage cfg env ret buffer addr =
        Run.prepend pre (relay cfg ret buffer env.selects env.reads env.writes) := by
  unfold connect_stage
  simp only []
  by_cases h1 : env.socket < 0
  · simp [h1, fail_reply]
  · by_cases h2 : env.connect < 0
    · simp [h1, h2, fail_reply]
    · simp only [if_neg h1, if_neg h2]
      cases env.getsockname .client_socket with
      | none => simp [fail_reply]
      | some la =>
        simp only []
        by_cases h3 : env.reply_write.ret ≠ 10
        · simp [h3]
        · simp only [if_neg h3]
          exact Or.inr ⟨_, rfl⟩

/-- The request stage ends in a failing exit or enters the relay loop. -/
theorem request_stage_cases (cfg : Config) (env : Env) (buffer0 : List Nat) :
    (request_stage cfg env buffer0).outcome = .exited EXIT_FAILURE ∨
      ∃ pre ret buffer, request_stage cfg env buffer0 =
        Run.prepend pre (relay cfg ret buffer env.selects env.reads env.writes) := by
  have hstep : ∀ (evs : List Event) (ret : Int) (buffer : List Nat) (addr : sockaddr_in),
      (Run.prepend evs (connect_stage cfg env ret buffer addr)).outcome = .exited EXIT_FAILURE ∨
        ∃ pre ret2 buffer2, Run.prepend evs (connect_stage cfg env ret buffer addr) =
          Run.prepend pre (relay cfg ret2 buffer2 env.selects env.reads env.writes) := by
    intro evs ret buffer addr
    rcases connect_stage_cases cfg env ret buffer addr with h | ⟨pre, h⟩
    · exact Or.inl h
    · exact Or.inr ⟨evs ++ pre, ret, buffer, by rw [h, prepend_prepend]⟩
  unfold request_stage
  simp only []
  generalize c_string (memcpy (List.replicate 256 0) (env.request.store buffer0) 5
    (byte_at (env.request.store buffer0) 4)) = name
  split_ifs
  · exact Or.inl rfl
  · exact Or.inl rfl
  · exact hstep _ _ _ _
  · exact Or.inl rfl
  · cases env.gethostbyname name with
    | none => exact Or.inl rfl
    | some host =>
      simp only []
      by_cases hf : host.h_addrtype ≠ AF_INET
      · simp only [if_pos hf]
        exact Or.inl rfl
      · simp only [if_neg hf]
        cases host.h_addr_list with
        | nil => exact Or.inl rfl
        | cons x xs => exact hstep _ _ _ _
  · exact Or.inl rfl

/-- The handler ends in a failing exit or enters the relay loop. -/
theorem handler_cases (cfg : Config) (env : Env) (buffer0 : List Nat) :
    (handler cfg env buffer0).outcome = .exited EXIT_FAILURE ∨
      ∃ pre ret buffer, handler cfg env buffer0 =
        Run.prepend pre (relay cfg ret buffer env.selects env.reads env.writes) := by
  have hstep : ∀ (evs : List Event) (buffer : List Nat),
      (Run.prepend evs (request_stage cfg env buffer)).outcome = .exited EXIT_FAILURE ∨
        ∃ pre ret2 buffer2, Run.prepend evs (request_stage cfg env buffer) =
          Run.prepend pre (relay cfg ret2 buffer2 env.selects env.reads env.writes) := by
    intro evs buffer
    rcases request_stage_cases cfg env buffer with h | ⟨pre, ret2, buffer2, h⟩
    · exact Or.inl h
    · exact Or.inr ⟨evs ++ pre, ret2, buffer2, by rw [h, prepend_prepend]⟩
  unfold handler
  simp only []
  split_ifs <;> first | exact Or.inl rfl | exact hstep _ _

/-- The relay loop exits with success only right after a `read` of zero bytes
or a `write` that returned 0. -/
theorem relay_exit_code (cfg : Config) (ret : Int) (buffer : List Nat)
    (selects : List SelectRes) (reads : List ReadRes) (writes : List WriteRes) :
    ∀ c, (relay cfg ret buffer selects reads writes).outcome = .exited c →
      c = EXIT_FAILURE ∨
        (c = EXIT_SUCCESS ∧
          ∃ pre e, (relay cfg ret buffer selects reads writes).trace =
              pre ++ [e, .close .client_socket, .close .remote_socket] ∧
            ((∃ fd, e = Event.read fd (.data [])) ∨
              (∃ fd data, e = Event.write fd .buffer data 0))) := by
  refine relay_run_induct cfg (fun (t : List Event) (o : Outcome) =>
    ∀ c, o = Outcome.exited c →
      c = EXIT_FAILURE ∨
        (c = EXIT_SUCCESS ∧
          ∃ (pre : List Event) (e : Event),
            t = pre ++ [e, Event.close .client_socket, Event.close .remote_socket] ∧
            ((∃ fd, e = Event.read fd (.data [])) ∨
              (∃ fd data, e = Event.write fd .buffer data 0))))
    ?_ ?_ ?_ ?_ ?_ ?_ ?_ ?_ ?_ selects ret buffer reads writes
  · intro c h
    cases h
  · intro s t o _ _ ih c h
    rcases ih c h with h1 | ⟨h1, pre, e, ht, he⟩
    · exact Or.inl h1
    · exact Or.inr ⟨h1, .select cfg.timeout_seconds 0 s :: pre, e, by rw [ht]; rfl, he⟩
  · intro s _ c h
    cases h
    exact Or.inl rfl
  · intro s _ c h
    cases h
  · intro s fd r t o _ _ _ ih c h
    rcases ih c h with h1 | ⟨h1, pre, e, ht, he⟩
    · exact Or.inl h1
    · exact Or.inr ⟨h1, .select cfg.timeout_seconds 0 s :: .read fd r :: pre, e,
        by rw [ht]; rfl, he⟩
  · intro s fd r _ hr _ c h
    cases r with
    | error x =>
      simp only [ReadRes.ret] at h
      cases h
      exact Or.inl rfl
    | data bytes =>
      have hb : bytes = [] := by
        simp only [ReadRes.ret] at hr
        exact List.length_eq_zero.1 (by omega)
      subst hb
      simp only [ReadRes.ret, List.length_nil, Nat.cast_zero, if_true] at h
      cases h
      exact Or.inr ⟨rfl, [.select cfg.timeout_seconds 0 s], _, rfl, Or.inl ⟨fd, rfl⟩⟩
  · intro s fd fd2 bytes ws t o _ _ _ ih c h
    rcases ih c h with h1 | ⟨h1, pre, e, ht, he⟩
    · exact Or.inl h1
    · refine Or.inr ⟨h1, .select cfg.timeout_seconds 0 s :: .read fd (.data bytes) ::
        (ws ++ pre), e, ?_, he⟩
      rw [ht]
      simp
  · intro s fd fd2 bytes ws data w _ _ _ _ _ c h
    by_cases hz : w.ret = 0
    · simp only [hz, if_true] at h
      cases h
      refine Or.inr ⟨rfl, .select cfg.timeout_seconds 0 s :: .read fd (.data bytes) :: ws,
        _, ?_, Or.inr ⟨fd2, data, rfl⟩⟩
      rw [hz]
      simp
    · simp only [if_neg hz] at h
      cases h
      exact Or.inl rfl
  · intro s fd fd2 bytes ws _ _ _ c h
    cases h

/-- The exit codes of the handler as the code has them: it exits with success
only right after a relay `read` returned zero bytes or a relay `write` returned
0 (the trace then ends with that call and the two `close` calls); every other
exit is with failure, and in the write loop a `write` error other than `EINTR`
is followed by the two `close` calls and `exit(EXIT_FAILURE)`. -/
theorem success_only_after_zero_read_or_write (cfg : Config) (env : Env)
    (buffer0 : List Nat) :
    (∀ c, (handler cfg env buffer0).outcome = .exited c →
      c = EXIT_FAILURE ∨
        (c = EXIT_SUCCESS ∧
          ∃ pre e, (handler cfg env buffer0).trace =
              pre ++ [e, .close .client_socket, .close .remote_socket] ∧
            ((∃ fd, e = Event.read fd (.data [])) ∨
              (∃ fd data, e = Event.write fd .buffer data 0)))) ∧
      (∀ receiver buffer total written ret errno ws, written < total → errno ≠ EINTR →
        write_loop receiver buffer total written ret (.error errno :: ws) =
          ([.write receiver .buffer ((buffer.drop written).take (total - written)) (-1),
              .close .client_socket, .close .remote_socket],
            .exited EXIT_FAILURE)) := by
  constructor
  · intro c h
    rcases handler_cases cfg env buffer0 with hf | ⟨hpre, ret, buffer, hr⟩
    · rw [hf] at h
      cases h
      exact Or.inl rfl
    · rw [hr] at h ⊢
      simp only [Run.prepend] at h ⊢
      rcases relay_exit_code cfg ret buffer env.selects env.reads env.writes c h with
        h1 | ⟨h1, pre, e, ht, he⟩
      · exact Or.inl h1
      · refine Or.inr ⟨h1, hpre ++ pre, e, ?_, he⟩
        rw [ht]
        simp
  · intro receiver buffer total written ret errno ws hlt hne
    unfold write_loop
    simp [hlt, WriteRes.ret, WriteRes.errno, hne, EXIT_FAILURE, EXIT_SUCCESS]

/-! ## Resolver and connector failures -/

/-- The decoder on an accepted domain request, on the values the code tests:
the name lookup and what follows it (lines 175-183). -/
theorem request_stage_domain_eq (cfg : Config) (env : Env) (buffer0 : List Nat)
    (name : List Nat)
    (h5 : ¬ env.request.ret < 5)
    (h0 : byte_at (env.request.store buffer0) 0 = 5)
    (h1 : byte_at (env.request.store buffer0) 1 = 1)
    (h2 : byte_at (env.request.store buffer0) 2 = 0)
    (h3 : byte_at (env.request.store buffer0) 3 = 3)
    (hl : env.request.ret = (byte_at (env.request.store buffer0) 4 : Int) + 7)
    (hname : c_string (memcpy (List.replicate 256 0) (env.request.store buffer0) 5
      (byte_at (env.request.store buffer0) 4)) = name) :
    request_stage cfg env buffer0 =
      match env.gethostbyname name with
      | none =>
        fail_reply env [.read .client_socket env.request, .gethostbyname name]
      | some host =>
        if host.h_addrtype ≠ AF_INET then
          fail_reply env [.read .client_socket env.request, .gethostbyname name]
        else
          match host.h_addr_list with
          | [] => fail_reply env [.read .client_socket env.request, .gethostbyname name]
          | h_addr :: _ =>
            Run.prepend [.read .client_socket env.request, .gethostbyname name]
              (connect_stage cfg env env.request.ret (env.request.store buffer0)
                { sin_family := AF_INET, sin_addr := h_addr,
                  sin_port :=
                    (byte_at (env.request.store buffer0)
                        (byte_at (env.request.store buffer0) 4 + 5),
                      byte_at (env.request.store buffer0)
                        (byte_at (env.request.store buffer0) 4 + 5 + 1)) }) := by
  have hc : ¬ (env.request.ret < 5 ∨ byte_at (env.request.store buffer0) 0 ≠ 0x05 ∨
      byte_at (env.request.store buffer0) 1 ≠ 0x01 ∨
      byte_at (env.request.store buffer0) 2 ≠ 0x00) := by
    rintro (h | h | h | h)
    · exact h5 h
    · exact h h0
    · exact h h1
    · exact h h2
  have h31 : ¬ byte_at (env.request.store buffer0) 3 = 0x01 := by rw [h3]; decide
  have hl2 : ¬ env.request.ret ≠ (byte_at (env.request.store buffer0) 4 : Int) + 7 :=
    not_not.2 hl
  unfold request_stage
  simp only [if_neg hc, if_neg h31, if_pos h3, if_neg hl2, hname]

/-- C15: for an accepted domain request whose lookup returns no host, a host of
another address type, or a host with an empty address list, and for any decoded
target when `socket` fails or `connect` fails, the run ends with one write of
`05 01 00 01 00 00 00 00 00 00` to the client, `close` and a failing exit: no
success reply is written and the relay loop is not entered. -/
theorem lookup_or_connect_failure_gets_failure_reply (cfg : Config) (env : Env)
    (buffer0 : List Nat) :
    (∀ (domain : List Nat) (p q : Nat),
        env.request = .data (0x05 :: 0x01 :: 0x00 :: 0x03 :: domain.length :: (domain ++ [p, q])) →
        (∀ host, env.gethostbyname (c_string (memcpy (List.replicate 256 0)
            (env.request.store buffer0) 5 domain.length)) = some host →
          host.h_addrtype ≠ AF_INET ∨ host.h_addr_list = []) →
        request_stage cfg env buffer0 =
          ⟨[.read .client_socket env.request,
              .gethostbyname (c_string (memcpy (List.replicate 256 0)
                (env.request.store buffer0) 5 domain.length)),
              .write .client_socket .connect_response
                [0x05, 0x01, 0x00, 0x01, 0x00, 0x00, 0x00, 0x00, 0x00, 0x00]
                env.failure_write.ret,
              .close .client_socket],
            .exited EXIT_FAILURE⟩) ∧
      (∀ ret buffer addr, env.socket < 0 →
        connect_stage cfg env ret buffer addr =
          ⟨[.socket env.socket,
              .write .client_socket .connect_response
                [0x05, 0x01, 0x00, 0x01, 0x00, 0x00, 0x00, 0x00, 0x00, 0x00]
                env.failure_write.ret,
              .close .client_socket],
            .exited EXIT_FAILURE⟩) ∧
      (∀ ret buffer addr, 0 ≤ env.socket → env.connect < 0 →
        connect_stage cfg env ret buffer addr =
          ⟨[.socket env.socket,
              .setsockopt cfg.interface_name (cfg.interface_name.length + 1) env.setsockopt,
              .connect addr env.connect,
              .write .client_socket .connect_response
                [0x05, 0x01, 0x00, 0x01, 0x00, 0x00, 0x00, 0x00, 0x00, 0x00]
                env.failure_write.ret,
              .close .client_socket],
            .exited EXIT_FAILURE⟩) := by
  refine ⟨?_, ?_, ?_⟩
  · intro domain p q hr hfail
    have hret : env.request.ret = (domain.length : Int) + 7 := by
      rw [hr]
      simp only [ReadRes.ret, List.length_cons, List.length_append, List.length_nil]
      push_cast
      ring
    have hb4 : byte_at (env.request.store buffer0) 4 = domain.length := by rw [hr]; rfl
    have heq := request_stage_domain_eq cfg env buffer0
      (c_string (memcpy (List.replicate 256 0) (env.request.store buffer0) 5 domain.length))
      (by rw [hret]; omega) (by rw [hr]; rfl) (by rw [hr]; rfl) (by rw [hr]; rfl)
      (by rw [hr]; rfl) (by rw [hb4, hret]) (by rw [hb4])
    rw [heq]
    revert hfail
    generalize c_string (memcpy (List.replicate 256 0) (env.request.store buffer0) 5
      domain.length) = name
    intro hfail
    cases hg : env.gethostbyname name with
    | none => rfl
    | some host =>
      simp only []
      rcases hfail host hg with hf | hf
      · rw [if_pos hf]
        rfl
      · by_cases ht : host.h_addrtype ≠ AF_INET
        · rw [if_pos ht]
          rfl
        · rw [if_neg ht, hf]
          rfl
  · intro ret buffer addr hs
    unfold connect_stage
    simp only [if_pos hs]
    rfl
  · intro ret buffer addr hs hc
    have hs2 : ¬ env.socket < 0 := by omega
    unfold connect_stage
    simp only [if_neg hs2, if_pos hc]
    rfl

/-- Witness for C15: the target refuses the connection. -/
theorem lookup_or_connect_failure_gets_failure_reply_witness :
    (0 : Int) ≤ ({ sample_env with connect := -1 } : Env).socket ∧
      ({ sample_env with connect := -1 } : Env).connect < 0 ∧
      connect_stage ⟨[116, 117, 110, 48], 60⟩ { sample_env with connect := -1 } 10 []
          ⟨AF_INET, (0x1F, 0x90), (127, 0, 0, 1)⟩ =
        ⟨[.socket 5,
            .setsockopt [116, 117, 110, 48] 5 0,
            .connect ⟨AF_INET, (0x1F, 0x90), (127, 0, 0, 1)⟩ (-1),
            .write .client_socket .connect_response [5, 1, 0, 1, 0, 0, 0, 0, 0, 0] 10,
            .close .client_socket],
          .exited EXIT_FAILURE⟩ :=
  ⟨by decide, by decide,
    (lookup_or_connect_failure_gets_failure_reply ⟨[116, 117, 110, 48], 60⟩
      { sample_env with connect := -1 } []).2.2 10 [] ⟨AF_INET, (0x1F, 0x90), (127, 0, 0, 1)⟩
      (by decide) (by decide)⟩

/-! ## Malformed greetings -/

/-- C16: a greeting read that fails, delivers fewer than two bytes, does not
start with the byte 5, or whose length is not its second byte plus 2, ends the
handler with a failing exit and without any `write`: the trace is the `read`
alone (failed read) or the `read` and `close(client_socket)`. -/
theorem malformed_greeting_gets_no_reply (cfg : Config) (env : Env) (buffer0 : List Nat) :
    (∀ errno, env.greeting = .error errno →
        handler cfg env buffer0 =
          ⟨[.read .client_socket env.greeting], .exited EXIT_FAILURE⟩) ∧
      (∀ msg, env.greeting = .data msg →
        (msg.length < 2 ∨ msg[0]? ≠ some 0x05 ∨
          (∀ n, msg[1]? = some n → msg.length ≠ n + 2)) →
        handler cfg env buffer0 =
          ⟨[.read .client_socket env.greeting, .close .client_socket],
            .exited EXIT_FAILURE⟩) := by
  constructor
  · intro errno hg
    unfold handler
    simp [hg, ReadRes.ret]
  · intro msg hg hbad
    have h1 : ¬ env.greeting.ret < 0 := by
      rw [hg]
      simp only [ReadRes.ret]
      omega
    have h2 : env.greeting.ret < 3 ∨ byte_at (env.greeting.store buffer0) 0 ≠ 0x05 ∨
        (byte_at (env.greeting.store buffer0) 1 : Int) ≠ env.greeting.ret - 2 := by
      match msg, hg, hbad with
      | [], hg, _ => left; rw [hg]; simp [ReadRes.ret]
      | [_], hg, _ => left; rw [hg]; simp [ReadRes.ret]
      | [_, _], hg, _ => left; rw [hg]; simp [ReadRes.ret]
      | a :: n :: m :: rest, hg, hbad =>
        right
        have hb0 : byte_at (env.greeting.store buffer0) 0 = a := by rw [hg]; rfl
        have hb1 : byte_at (env.greeting.store buffer0) 1 = n := by rw [hg]; rfl
        have hret : env.greeting.ret = (rest.length : Int) + 3 := by
          rw [hg]; simp only [ReadRes.ret, List.length_cons]; push_cast; ring
        rw [hb0, hb1, hret]
        rcases hbad with h | h | h
        · simp only [List.length_cons] at h
          omega
        · left
          intro ha
          subst ha
          exact h rfl
        · right
          have hn := h n rfl
          simp only [List.length_cons] at hn
          omega
    unfold handler
    simp only [if_neg h1, if_pos h2]

/-- Witness for C16: a SOCKS4 greeting is dropped without a reply. -/
theorem malformed_greeting_gets_no_reply_witness :
    ({ sample_env with greeting := .data [4, 1, 0, 80] } : Env).greeting = .data [4, 1, 0, 80] ∧
      ([4, 1, 0, 80] : List Nat)[0]? ≠ some 0x05 ∧
      handler ⟨[116, 117, 110, 48], 60⟩ { sample_env with greeting := .data [4, 1, 0, 80] } [] =
        ⟨[.read .client_socket (.data [4, 1, 0, 80]), .close .client_socket],
          .exited EXIT_FAILURE⟩ :=
  ⟨rfl, by decide,
    (malformed_greeting_gets_no_reply ⟨[116, 117, 110, 48], 60⟩
      { sample_env with greeting := .data [4, 1, 0, 80] } []).2 [4, 1, 0, 80] rfl
      (Or.inr (Or.inl (by decide)))⟩

/-! ## The domain buffer -/

theorem byte_at_append_right (pre post : List Nat) (i : Nat) :
    byte_at (pre ++ post) (pre.length + i) = byte_at post i := by
  unfold byte_at
  simp [List.getElem?_append_right]

theorem range_map_byte_at (pre l post : List Nat) :
    (List.range l.length).map (fun i => byte_at (pre ++ (l ++ post)) (pre.length + i)) = l := by
  apply List.ext_getElem
  · simp
  · intro i h1 h2
    simp only [List.getElem_map, List.getElem_range, byte_at_append_right]
    rw [byte_at_append_lt _ _ _ h2]
    unfold byte_at
    exact List.getD_eq_getElem _ _ h2

theorem c_string_append_zero (l r : List Nat) : c_string (l ++ 0 :: r) = c_string l := by
  unfold c_string
  induction l with
  | nil => simp
  | cons a l ih =>
    by_cases ha : a = 0
    · simp [ha]
    · simp [List.takeWhile_cons, ha, ih]

/-- The domain copy of line 175 on a buffer that starts with a domain request:
`domain_buffer` is the domain bytes followed by zeros. -/
theorem memcpy_domain (domain tail2 : List Nat) (L : Nat) :
    memcpy (List.replicate 256 0) (0x05 :: 0x01 :: 0x00 :: 0x03 :: L :: (domain ++ tail2)) 5
        domain.length =
      domain ++ List.replicate (256 - domain.length) 0 := by
  unfold memcpy
  have h := range_map_byte_at [0x05, 0x01, 0x00, 0x03, L] domain tail2
  simp only [List.length_cons, List.length_nil, List.cons_append, List.nil_append] at h
  rw [h, List.drop_replicate]

/-- C17: for a domain request `05 01 00 03 L domain p q` with `L` (at most 255)
domain bytes, read in one piece, `domain_buffer` after the copy of line 175 is
the `L` domain bytes followed by `256 - L` zero bytes: 256 bytes in all, with a
zero at index `L`, so the name the resolver reads ends within the domain bytes;
the name is looked up, and on a successful lookup the target handed on has the
port bytes `p q`, that is port `256 * p + q`. -/
theorem domain_buffer_contents (cfg : Config) (env : Env) (buffer0 domain : List Nat)
    (p q : Nat)
    (hr : env.request =
      .data (0x05 :: 0x01 :: 0x00 :: 0x03 :: domain.length :: (domain ++ [p, q])))
    (hL : domain.length ≤ 255) :
    memcpy (List.replicate 256 0) (env.request.store buffer0) 5 domain.length =
        domain ++ List.replicate (256 - domain.length) 0 ∧
      (memcpy (List.replicate 256 0) (env.request.store buffer0) 5 domain.length).length
        = 256 ∧
      (memcpy (List.replicate 256 0) (env.request.store buffer0) 5 domain.length)[domain.length]?
        = some 0 ∧
      c_string (memcpy (List.replicate 256 0) (env.request.store buffer0) 5 domain.length) =
        c_string domain ∧
      Event.gethostbyname (c_string domain) ∈ (request_stage cfg env buffer0).trace ∧
      (∀ host h_addr rest, env.gethostbyname (c_string domain) = some host →
        host.h_addrtype = AF_INET → host.h_addr_list = h_addr :: rest →
        request_stage cfg env buffer0 =
          Run.prepend [.read .client_socket env.request, .gethostbyname (c_string domain)]
            (connect_stage cfg env ((domain.length : Int) + 7) (env.request.store buffer0)
              { sin_family := AF_INET, sin_addr := h_addr, sin_port := (p, q) })) ∧
      ntohs (p, q) = 256 * p + q := by
  have hstore : env.request.store buffer0 =
      0x05 :: 0x01 :: 0x00 :: 0x03 :: domain.length ::
        (domain ++ ([p, q] ++ buffer0.drop (domain.length + 7))) := by
    rw [hr]
    simp [ReadRes.store]
  have hmem : memcpy (List.replicate 256 0) (env.request.store buffer0) 5 domain.length =
      domain ++ List.replicate (256 - domain.length) 0 := by
    rw [hstore]
    exact memcpy_domain domain _ domain.length
  have hrep : List.replicate (256 - domain.length) 0 =
      0 :: List.replicate (255 - domain.length) 0 := by
    have h256 : 256 - domain.length = (255 - domain.length) + 1 := by omega
    rw [h256, List.replicate_succ]
  have hname : c_string (memcpy (List.replicate 256 0) (env.request.store buffer0) 5
      domain.length) = c_string domain := by
    rw [hmem, hrep, c_string_append_zero]
  have hret : env.request.ret = (domain.length : Int) + 7 := by
    rw [hr]
    simp only [ReadRes.ret, List.length_cons, List.length_append, List.length_nil]
    push_cast
    ring
  have hb4 : byte_at (env.request.store buffer0) 4 = domain.length := by rw [hr]; rfl
  have hport : byte_at (env.request.store buffer0) (domain.length + 5) = p ∧
      byte_at (env.request.store buffer0) (domain.length + 5 + 1) = q := by
    have hsplit : env.request.store buffer0 =
        (0x05 :: 0x01 :: 0x00 :: 0x03 :: domain.length :: domain) ++
          (p :: q :: buffer0.drop (domain.length + 7)) := by
      rw [hstore]
      simp
    have hlen : (0x05 :: 0x01 :: 0x00 :: 0x03 :: domain.length :: domain).length =
        domain.length + 5 := by simp
    constructor
    · have h := byte_at_append_right (0x05 :: 0x01 :: 0x00 :: 0x03 :: domain.length :: domain)
        (p :: q :: buffer0.drop (domain.length + 7)) 0
      rw [hlen] at h
      rw [hsplit]
      exact h
    · have h := byte_at_append_right (0x05 :: 0x01 :: 0x00 :: 0x03 :: domain.length :: domain)
        (p :: q :: buffer0.drop (domain.length + 7)) 1
      rw [hlen] at h
      rw [hsplit]
      exact h
  have heq := request_stage_domain_eq cfg env buffer0 (c_string domain)
    (by rw [hret]; omega) (by rw [hr]; rfl) (by rw [hr]; rfl) (by rw [hr]; rfl)
    (by rw [hr]; rfl) (by rw [hb4, hret]) (by rw [hb4]; exact hname)
  refine ⟨hmem, ?_, ?_, hname, ?_, ?_, rfl⟩
  · rw [hmem, List.length_append, List.length_replicate]
    omega
  · rw [hmem, hrep, List.getElem?_append_right (Nat.le_refl _)]
    simp
  · rw [heq]
    cases env.gethostbyname (c_string domain) with
    | none => simp [fail_reply]
    | some host =>
      simp only []
      by_cases hf : host.h_addrtype ≠ AF_INET
      · simp [hf, fail_reply]
      · simp only [if_neg hf]
        cases host.h_addr_list with
        | nil => simp [fail_reply]
        | cons x xs => simp [Run.prepend]
  · intro host h_addr rest hg ht hl
    rw [heq, hg]
    simp only []
    rw [if_neg (not_not.2 ht), hl]
    simp only []
    rw [hb4, hport.1, hport.2, hret]

/-- Witness for C17: the request for `abc`, port 443. -/
theorem domain_buffer_contents_witness :
    ({ sample_env with request := .data [5, 1, 0, 3, 3, 97, 98, 99, 1, 187] } : Env).request =
        .data (0x05 :: 0x01 :: 0x00 :: 0x03 :: [97, 98, 99].length :: ([97, 98, 99] ++ [1, 187])) ∧
      [97, 98, 99].length ≤ 255 ∧
      c_string [97, 98, 99] = [97, 98, 99] ∧
      Event.gethostbyname (c_string [97, 98, 99]) ∈
        (request_stage ⟨[116, 117, 110, 48], 60⟩
          { sample_env with request := .data [5, 1, 0, 3, 3, 97, 98, 99, 1, 187] } []).trace ∧
      ntohs (1, 187) = 443 :=
  ⟨rfl, by decide, by decide,
    (domain_buffer_contents ⟨[116, 117, 110, 48], 60⟩
      { sample_env with request := .data [5, 1, 0, 3, 3, 97, 98, 99, 1, 187] } []
      [97, 98, 99] 1 187 rfl (by decide)).2.2.2.2.1,
    by decide⟩

/-! ## Termination of the write loop -/

/-- The write loop from any value of `written`, when every `write` it makes
returns a count between 1 and the number of bytes offered and enough results
are scripted: it finishes, makes at most `total - written` calls, gets exactly
`buffer[written .. total)` accepted, and issues each call at the offset reached
by the bytes accepted before it. -/
theorem write_loop_completes_from (receiver : Fd) (buffer : List Nat) (total : Nat)
    (hbuf : total ≤ buffer.length) :
    ∀ (ws : List WriteRes) (written : Nat) (ret : Int),
      written ≤ total → total - written ≤ ws.length →
      (∀ e ∈ (write_loop receiver buffer total written ret ws).1,
        ∃ data n, e = Event.write receiver .buffer data ((n : Nat) : Int) ∧
          1 ≤ n ∧ n ≤ data.length) →
      (∃ ret2 rest, (write_loop receiver buffer total written ret ws).2 = .done ret2 rest) ∧
        (write_loop receiver buffer total written ret ws).1.length ≤ total - written ∧
        written_to receiver (write_loop receiver buffer total written ret ws).1 =
          (buffer.drop written).take (total - written) ∧
        (∀ pre e post, (write_loop receiver buffer total written ret ws).1 = pre ++ e :: post →
          written + (written_to receiver pre).length < total ∧
            ∃ n, e = Event.write receiver .buffer
              ((buffer.drop (written + (written_to receiver pre).length)).take
                (total - (written + (written_to receiver pre).length))) n) := by
  intro ws
  induction ws with
  | nil =>
    intro written ret hle hfuel _
    have heq : written = total := by
      simp only [List.length_nil] at hfuel
      omega
    subst heq
    unfold write_loop
    simp [written_to]
  | cons w ws ih =>
    intro written ret hle hfuel hcounts
    by_cases hlt : written < total
    · have hhead : ∃ n : Nat, w.ret = (n : Int) ∧ 1 ≤ n ∧ n ≤ total - written := by
        unfold write_loop at hcounts
        simp only [if_pos hlt] at hcounts
        have hlen : ((buffer.drop written).take (total - written)).length = total - written := by
          rw [List.length_take, List.length_drop]
          omega
        by_cases hw : w.ret ≤ 0
        · simp only [if_pos hw] at hcounts
          by_cases hint : w.ret < 0 ∧ w.errno = EINTR
          · simp only [if_pos hint] at hcounts
            obtain ⟨data, n, he, h1, _⟩ := hcounts _ (List.mem_cons_self _ _)
            simp only [Event.write.injEq, true_and] at he
            omega
          · simp only [if_neg hint] at hcounts
            obtain ⟨data, n, he, h1, _⟩ := hcounts _ (List.mem_cons_self _ _)
            simp only [Event.write.injEq, true_and] at he
            omega
        · simp only [if_neg hw] at hcounts
          obtain ⟨data, n, he, h1, h2⟩ := hcounts _ (List.mem_cons_self _ _)
          simp only [Event.write.injEq, true_and] at he
          obtain ⟨hd, hn⟩ := he
          refine ⟨n, hn, h1, ?_⟩
          rw [← hd, hlen] at h2
          exact h2
      obtain ⟨n, hn, hn1, hn2⟩ := hhead
      have hw : ¬ w.ret ≤ 0 := by omega
      have htn : w.ret.toNat = n := by omega
      have hstep : write_loop receiver buffer total written ret (w :: ws) =
          (Event.write receiver .buffer ((buffer.drop written).take (total - written)) w.ret ::
              (write_loop receiver buffer total (written + n) w.ret ws).1,
            (write_loop receiver buffer total (written + n) w.ret ws).2) := by
        rw [write_loop]
        simp only [if_pos hlt, if_neg hw, htn]
      rw [hstep] at hcounts
      obtain ⟨hdone, hcalls, hbytes, hoff⟩ := ih (written + n) w.ret (by omega)
        (by simp only [List.length_cons] at hfuel; omega)
        (fun e he => hcounts e (List.mem_cons_of_mem _ he))
      have hacc : (Event.write receiver .buffer
          ((buffer.drop written).take (total - written)) w.ret).accepted receiver =
          ((buffer.drop written).take (total - written)).take n := by
        simp [Event.accepted, htn]
      have hacclen : (((buffer.drop written).take (total - written)).take n).length = n := by
        rw [List.length_take, List.length_take, List.length_drop]
        omega
      rw [hstep]
      refine ⟨hdone, ?_, ?_, ?_⟩
      · simp only [List.length_cons]
        omega
      · show (Event.write receiver .buffer
            ((buffer.drop written).take (total - written)) w.ret).accepted receiver ++
          written_to receiver (write_loop receiver buffer total (written + n) w.ret ws).1 = _
        rw [hacc, hbytes]
        have h1 : (buffer.drop (written + n)).take (total - (written + n))
            = ((buffer.drop written).take (total - written)).drop n := by
          rw [List.drop_take, List.drop_drop, Nat.sub_sub]
        rw [h1, List.take_append_drop]
      · intro pre e post hsplit
        cases pre with
        | nil =>
          simp only [List.nil_append, List.cons.injEq] at hsplit
          refine ⟨by simp [written_to]; exact hlt, w.ret, ?_⟩
          rw [← hsplit.1]
          simp [written_to]
        | cons e0 pre =>
          simp only [List.cons_append, List.cons.injEq] at hsplit
          obtain ⟨h0, hrest⟩ := hsplit
          obtain ⟨ho1, m, ho2⟩ := hoff pre e post hrest
          have hlenpre : (written_to receiver (e0 :: pre)).length =
              n + (written_to receiver pre).length := by
            show (e0.accepted receiver ++ written_to receiver pre).length = _
            rw [← h0, hacc, List.length_append, hacclen]
          rw [hlenpre]
          have hassoc : written + (n + (written_to receiver pre).length) =
              written + n + (written_to receiver pre).length := by omega
          rw [hassoc]
          exact ⟨ho1, m, ho2⟩
    · have heq : written = total := by omega
      subst heq
      unfold write_loop
      simp [written_to]

/-- The write loop from any value of `written`, under a condition on the
scripted results alone: every result that is reached while bytes remain unsent
is a count between 1 and the number of bytes still unsent.  Then every call the
loop makes is a `write` that returned such a count, and the loop uses up an
initial part of the results whose counts add up to `total - written`, makes one
call for each of them, and finishes. -/
theorem write_loop_consumes (receiver : Fd) (buffer : List Nat) (total : Nat)
    (hbuf : total ≤ buffer.length) :
    ∀ (ws : List WriteRes) (written : Nat) (ret : Int),
      written ≤ total → total - written ≤ ws.length →
      (∀ pre w post, ws = pre ++ w :: post →
        written + (pre.map (fun x => (WriteRes.ret x).toNat)).sum < total →
        ∃ n, w = WriteRes.ok n ∧ 1 ≤ n ∧
          n ≤ total - (written + (pre.map (fun x => (WriteRes.ret x).toNat)).sum)) →
      (∀ e ∈ (write_loop receiver buffer total written ret ws).1,
        ∃ data n, e = Event.write receiver .buffer data ((n : Nat) : Int) ∧
          1 ≤ n ∧ n ≤ data.length) ∧
        ∃ used rest ret2, ws = used ++ rest ∧ used.length ≤ total - written ∧
          written + (used.map (fun x => (WriteRes.ret x).toNat)).sum = total ∧
          (write_loop receiver buffer total written ret ws).1.length = used.length ∧
          (write_loop receiver buffer total written ret ws).2 = .done ret2 rest := by
  intro ws
  induction ws with
  | nil =>
    intro written ret hle hfuel _
    have heq : written = total := by
      simp only [List.length_nil] at hfuel
      omega
    subst heq
    unfold write_loop
    simp only [lt_irrefl, if_false]
    exact ⟨by simp, [], [], ret, rfl, by simp, by simp, rfl, rfl⟩
  | cons w ws ih =>
    intro written ret hle hfuel hin
    by_cases hlt : written < total
    · obtain ⟨n, hw, hn1, hn2⟩ := hin [] w ws rfl (by simpa using hlt)
      simp only [List.map_nil, List.sum_nil, Nat.add_zero] at hn2
      subst hw
      have hstep : write_loop receiver buffer total written ret (WriteRes.ok n :: ws) =
          (Event.write receiver .buffer ((buffer.drop written).take (total - written))
              ((n : Nat) : Int) ::
              (write_loop receiver buffer total (written + n) ((n : Nat) : Int) ws).1,
            (write_loop receiver buffer total (written + n) ((n : Nat) : Int) ws).2) := by
        rw [write_loop]
        have hpos : ¬ ((n : Nat) : Int) ≤ 0 := by omega
        simp only [if_pos hlt, WriteRes.ret, if_neg hpos, Int.toNat_ofNat]
      have hcount : (WriteRes.ok n).ret.toNat = n := by simp [WriteRes.ret]
      have htail : ∀ pre w2 post, ws = pre ++ w2 :: post →
          written + n + (pre.map (fun x => (WriteRes.ret x).toNat)).sum < total →
          ∃ m, w2 = WriteRes.ok m ∧ 1 ≤ m ∧
            m ≤ total - (written + n + (pre.map (fun x => (WriteRes.ret x).toNat)).sum) := by
        intro pre w2 post hsplit hsum
        have h := hin (WriteRes.ok n :: pre) w2 post (by rw [hsplit]; rfl)
        simp only [List.map_cons, List.sum_cons, hcount] at h
        have hassoc : written + (n + (pre.map (fun x => (WriteRes.ret x).toNat)).sum) =
            written + n + (pre.map (fun x => (WriteRes.ret x).toNat)).sum := by omega
        rw [hassoc] at h
        exact h hsum
      obtain ⟨hev, used, rest, ret2, hsplit, hlen, hsum, hcalls, hdone⟩ :=
        ih (written + n) ((n : Nat) : Int) (by omega)
          (by simp only [List.length_cons] at hfuel; omega) htail
      rw [hstep]
      refine ⟨?_, WriteRes.ok n :: used, rest, ret2, by rw [hsplit]; rfl, ?_, ?_, ?_, hdone⟩
      · simp only [List.forall_mem_cons]
        refine ⟨⟨_, n, rfl, hn1, ?_⟩, hev⟩
        rw [List.length_take, List.length_drop]
        omega
      · simp only [List.length_cons]
        omega
      · simp only [List.map_cons, List.sum_cons, hcount]
        omega
      · simp only [List.length_cons, hcalls]
    · have heq : written = total := by omega
      subst heq
      unfold write_loop
      simp only [lt_irrefl, if_false]
      exact ⟨by simp, [], w :: ws, ret, rfl, by simp, by simp, rfl, rfl⟩

/-- C18: the write loop on a chunk of `total` bytes held in `buffer`, started
with `written = 0`, for every list of at least `total` write results in which
each result reached while bytes remain unsent is a count between 1 and the
number of bytes still unsent (a condition on the results alone).  The loop
finishes: it uses up an initial part of the results, at most `total` of them,
whose counts add up to `total` (`written` has reached `total`), and makes one
call for each.  The bytes accepted are the whole chunk, and each call is issued
at the offset `written` reached by the bytes accepted so far, below `total`,
with the `total - written` bytes from there.  In any state of the loop, a
`write` that fails with `EINTR` is followed by the loop from the same
`written`, so the next call offers the same bytes. -/
theorem write_loop_terminates (receiver : Fd) (buffer : List Nat) (total : Nat) (ret : Int)
    (ws : List WriteRes)
    (hbuf : total ≤ buffer.length)
    (hfuel : total ≤ ws.length)
    (hcounts : ∀ pre w post, ws = pre ++ w :: post →
      (pre.map (fun x => (WriteRes.ret x).toNat)).sum < total →
      ∃ n, w = WriteRes.ok n ∧ 1 ≤ n ∧
        n ≤ total - (pre.map (fun x => (WriteRes.ret x).toNat)).sum) :
    (∃ used rest ret2, ws = used ++ rest ∧ used.length ≤ total ∧
        (used.map (fun x => (WriteRes.ret x).toNat)).sum = total ∧
        (write_loop receiver buffer total 0 ret ws).1.length = used.length ∧
        (write_loop receiver buffer total 0 ret ws).2 = .done ret2 rest) ∧
      (∃ ret2 rest, (write_loop receiver buffer total 0 ret ws).2 = .done ret2 rest) ∧
      (write_loop receiver buffer total 0 ret ws).1.length ≤ total ∧
      written_to receiver (write_loop receiver buffer total 0 ret ws).1 = buffer.take total ∧
      (written_to receiver (write_loop receiver buffer total 0 ret ws).1).length = total ∧
      (∀ pre e post, (write_loop receiver buffer total 0 ret ws).1 = pre ++ e :: post →
        (written_to receiver pre).length < total ∧
          ∃ n, e = Event.write receiver .buffer
            ((buffer.drop (written_to receiver pre).length).take
              (total - (written_to receiver pre).length)) n) ∧
      (∀ written ret2 ws2, written < total →
        write_loop receiver buffer total written ret2 (.error EINTR :: ws2) =
          (Event.write receiver .buffer ((buffer.drop written).take (total - written)) (-1) ::
              (write_loop receiver buffer total written (-1) ws2).1,
            (write_loop receiver buffer total written (-1) ws2).2)) := by
  have hin : ∀ pre w post, ws = pre ++ w :: post →
      0 + (pre.map (fun x => (WriteRes.ret x).toNat)).sum < total →
      ∃ n, w = WriteRes.ok n ∧ 1 ≤ n ∧
        n ≤ total - (0 + (pre.map (fun x => (WriteRes.ret x).toNat)).sum) := by
    intro pre w post hsplit hsum
    simp only [Nat.zero_add] at hsum ⊢
    exact hcounts pre w post hsplit hsum
  obtain ⟨hev, used, rest, ret2, hsplit, hlen, hsum, hcalls2, hdone2⟩ :=
    write_loop_consumes receiver buffer total hbuf ws 0 ret (Nat.zero_le _) (by omega) hin
  obtain ⟨hdone, hcalls, hbytes, hoff⟩ := write_loop_completes_from receiver buffer total hbuf
    ws 0 ret (Nat.zero_le _) (by omega) hev
  have hbytes2 : written_to receiver (write_loop receiver buffer total 0 ret ws).1 =
      buffer.take total := by
    rw [hbytes]
    simp
  refine ⟨⟨used, rest, ret2, hsplit, by omega, by omega, hcalls2, hdone2⟩,
    hdone, by omega, hbytes2, ?_, ?_, ?_⟩
  · rw [hbytes2, List.length_take]
    omega
  · intro pre e post hsplit2
    have h := hoff pre e post hsplit2
    simp only [Nat.zero_add] at h
    exact h
  · intro written ret3 ws2 hlt
    rw [write_loop]
    simp [hlt, WriteRes.ret, WriteRes.errno]

/-- Witness for C18: a chunk of four bytes goes out in three writes. -/
theorem write_loop_terminates_witness :
    4 ≤ ([1, 2, 3, 4] : List Nat).length ∧
      4 ≤ ([.ok 1, .ok 2, .ok 1, .ok 5] : List WriteRes).length ∧
      (write_loop .remote_socket [1, 2, 3, 4] 4 0 4 [.ok 1, .ok 2, .ok 1, .ok 5]).1 =
        [.write .remote_socket .buffer [1, 2, 3, 4] 1,
          .write .remote_socket .buffer [2, 3, 4] 2,
          .write .remote_socket .buffer [4] 1] ∧
      (∃ ret2 rest,
        (write_loop .remote_socket [1, 2, 3, 4] 4 0 4 [.ok 1, .ok 2, .ok 1, .ok 5]).2 =
          .done ret2 rest) :=
  ⟨by decide, by decide, by decide,
    (write_loop_terminates .remote_socket [1, 2, 3, 4] 4 4 [.ok 1, .ok 2, .ok 1, .ok 5]
      (by decide) (by decide)
      (by
        intro pre w post hsplit hsum
        rcases pre with _ | ⟨a, _ | ⟨b, _ | ⟨c, _ | ⟨d, pre⟩⟩⟩⟩
        · simp only [List.nil_append, List.cons.injEq] at hsplit
          exact ⟨1, hsplit.1.symm, by decide, by decide⟩
        · simp only [List.cons_append, List.nil_append, List.cons.injEq] at hsplit
          obtain ⟨ha, hw, _⟩ := hsplit
          subst ha
          exact ⟨2, hw.symm, by decide, by decide⟩
        · simp only [List.cons_append, List.nil_append, List.cons.injEq] at hsplit
          obtain ⟨ha, hb, hw, _⟩ := hsplit
          subst ha hb
          exact ⟨1, hw.symm, by decide, by decide⟩
        · simp only [List.cons_append, List.nil_append, List.cons.injEq] at hsplit
          obtain ⟨ha, hb, hc, _⟩ := hsplit
          subst ha hb hc
          exact absurd hsum (by decide)
        · simp at hsplit)).2.1⟩

/-! ## Independence from stale buffer contents -/

/-- The write loop looks only at the first `total` bytes of `buffer`. -/
theorem write_loop_congr (receiver : Fd) (buffer1 buffer2 : List Nat) (total : Nat)
    (h : buffer1.take total = buffer2.take total) :
    ∀ (ws : List WriteRes) (written : Nat) (ret : Int),
      write_loop receiver buffer1 total written ret ws =
        write_loop receiver buffer2 total written ret ws := by
  have hdata : ∀ written, (buffer1.drop written).take (total - written) =
      (buffer2.drop written).take (total - written) := by
    intro written
    rw [← List.drop_take, ← List.drop_take, h]
  intro ws
  induction ws with
  | nil =>
    intro written ret
    simp only [write_loop]
  | cons w ws ih =>
    intro written ret
    rw [write_loop, write_loop]
    simp only [hdata, ih]

/-- A run of the relay loop does not depend on what `buffer` holds when the
loop is entered. -/
theorem relay_buffer_irrelevant (cfg : Config) :
    ∀ (ss : List SelectRes) (ret : Int) (buffer1 buffer2 : List Nat) (rs : List ReadRes)
      (ws : List WriteRes),
      relay cfg ret buffer1 ss rs ws = relay cfg ret buffer2 ss rs ws := by
  intro ss
  induction ss with
  | nil =>
    intro ret buffer1 buffer2 rs ws
    simp only [relay]
  | cons s ss ih =>
    intro ret buffer1 buffer2 rs ws
    cases rs with
    | nil =>
      rw [relay, relay]
      simp only [ih ret buffer1 buffer2 [] ws]
    | cons r rs =>
      rw [relay, relay]
      cases r with
      | error e =>
        have hneg : (ReadRes.error e).ret ≤ 0 := by simp [ReadRes.ret]
        simp only [if_pos hneg, ih ret buffer1 buffer2 (ReadRes.error e :: rs) ws,
          ih (ReadRes.error e).ret ((ReadRes.error e).store buffer1)
            ((ReadRes.error e).store buffer2) rs ws]
      | data bytes =>
        have htake : ((ReadRes.data bytes).store buffer1).take (ReadRes.data bytes).ret.toNat =
            ((ReadRes.data bytes).store buffer2).take (ReadRes.data bytes).ret.toNat := by
          simp [ReadRes.store, ReadRes.ret]
        have hwl := write_loop_congr
          (if (if s.client_isset = true then Fd.client_socket else Fd.remote_socket)
              = Fd.client_socket then Fd.remote_socket else Fd.client_socket)
          ((ReadRes.data bytes).store buffer1) ((ReadRes.data bytes).store buffer2)
          (ReadRes.data bytes).ret.toNat htake ws 0 (ReadRes.data bytes).ret
        simp only [hwl, ih ret buffer1 buffer2 (ReadRes.data bytes :: rs) ws,
          ih (ReadRes.data bytes).ret ((ReadRes.data bytes).store buffer1)
            ((ReadRes.data bytes).store buffer2) rs ws]
        cases write_loop
          (if (if s.client_isset = true then Fd.client_socket else Fd.remote_socket)
              = Fd.client_socket then Fd.remote_socket else Fd.client_socket)
          ((ReadRes.data bytes).store buffer2) (ReadRes.data bytes).ret.toNat 0
          (ReadRes.data bytes).ret ws with
        | mk evs res =>
          cases res with
          | done ret2 ws2 =>
            simp only [ih ret2 ((ReadRes.data bytes).store buffer1)
              ((ReadRes.data bytes).store buffer2) rs ws2]
          | exited code => rfl
          | awaiting_write => rfl

/-- The connection stage does not depend on what `buffer` holds. -/
theorem connect_stage_buffer_irrelevant (cfg : Config) (env : Env) (ret : Int)
    (buffer1 buffer2 : List Nat) (addr : sockaddr_in) :
    connect_stage cfg env ret buffer1 addr = connect_stage cfg env ret buffer2 addr := by
  unfold connect_stage
  simp only [relay_buffer_irrelevant cfg env.selects ret buffer1 buffer2 env.reads env.writes]

/-- Bytes below the length of the message read are the same whatever the
buffer held before the read. -/
theorem byte_at_store (msg buffer1 buffer2 : List Nat) (i : Nat) (h : i < msg.length) :
    byte_at ((ReadRes.data msg).store buffer1) i =
      byte_at ((ReadRes.data msg).store buffer2) i := by
  simp only [ReadRes.store]
  rw [byte_at_append_lt _ _ _ h, byte_at_append_lt _ _ _ h]

/-- The request stage does not depend on what `buffer` holds before the request
is read. -/
theorem request_stage_buffer_irrelevant (cfg : Config) (env : Env)
    (buffer1 buffer2 : List Nat) :
    request_stage cfg env buffer1 = request_stage cfg env buffer2 := by
  cases hr : env.request with
  | error e =>
    have h5 : env.request.ret < 5 := by rw [hr]; simp [ReadRes.ret]
    rw [request_stage_reject cfg env buffer1 (Or.inl h5),
      request_stage_reject cfg env buffer2 (Or.inl h5)]
  | data msg =>
    rcases short_or_five msg with hs | ⟨a, b, c, d, e, rest, hm⟩
    · have h5 : env.request.ret < 5 := by
        rw [hr]
        simp only [ReadRes.ret]
        omega
      rw [request_stage_reject cfg env buffer1 (Or.inl h5),
        request_stage_reject cfg env buffer2 (Or.inl h5)]
    · have hret : env.request.ret = (rest.length : Int) + 5 := by
        rw [hr, hm]; simp only [ReadRes.ret, List.length_cons]; push_cast; ring
      have hkey : ∀ i, i < rest.length + 5 →
          byte_at (env.request.store buffer2) i = byte_at (env.request.store buffer1) i := by
        intro i hi
        rw [hr]
        exact byte_at_store msg buffer2 buffer1 i (by rw [hm]; simpa using hi)
      have k0 := hkey 0 (by omega)
      have k1 := hkey 1 (by omega)
      have k2 := hkey 2 (by omega)
      have k3 := hkey 3 (by omega)
      have k4 := hkey 4 (by omega)
      by_cases hrej : env.request.ret < 5 ∨ byte_at (env.request.store buffer1) 0 ≠ 5 ∨
          byte_at (env.request.store buffer1) 1 ≠ 1 ∨
          byte_at (env.request.store buffer1) 2 ≠ 0 ∨
          (byte_at (env.request.store buffer1) 3 = 1 ∧ env.request.ret ≠ 10) ∨
          (byte_at (env.request.store buffer1) 3 = 3 ∧
            env.request.ret ≠ (byte_at (env.request.store buffer1) 4 : Int) + 7) ∨
          (byte_at (env.request.store buffer1) 3 ≠ 1 ∧
            byte_at (env.request.store buffer1) 3 ≠ 3)
      · rw [request_stage_reject cfg env buffer1 hrej,
          request_stage_reject cfg env buffer2 (by rw [k0, k1, k2, k3, k4]; exact hrej)]
      · simp only [not_or, not_and, not_not, ne_eq] at hrej
        obtain ⟨_, h0, h1, h2, h31, h33, h3⟩ := hrej
        have hb0 : byte_at (env.request.store buffer1) 0 = a := by rw [hr, hm]; rfl
        have hb1 : byte_at (env.request.store buffer1) 1 = b := by rw [hr, hm]; rfl
        have hb2 : byte_at (env.request.store buffer1) 2 = c := by rw [hr, hm]; rfl
        have hb3 : byte_at (env.request.store buffer1) 3 = d := by rw [hr, hm]; rfl
        rw [hb0] at h0
        rw [hb1] at h1
        rw [hb2] at h2
        subst h0 h1 h2
        by_cases hd : byte_at (env.request.store buffer1) 3 = 1
        · have hten := h31 hd
          rw [hb3] at hd
          subst hd
          have hlen : rest.length = 5 := by omega
          match rest, hlen, hm with
          | [a1, a2, a3, p1, p2], _, hm =>
            rw [hm] at hr
            rw [request_stage_ipv4 cfg env buffer1 e a1 a2 a3 p1 p2 hr,
              request_stage_ipv4 cfg env buffer2 e a1 a2 a3 p1 p2 hr,
              connect_stage_buffer_irrelevant cfg env 10 (env.request.store buffer1)
                (env.request.store buffer2)]
        · have hd3 : byte_at (env.request.store buffer1) 3 = 3 := by
            by_contra hne
            exact hne (h3 hd)
          have hlenL := h33 hd3
          have hL : rest.length + 5 = byte_at (env.request.store buffer1) 4 + 7 := by omega
          have hmemcpy : memcpy (List.replicate 256 0) (env.request.store buffer2) 5
                (byte_at (env.request.store buffer2) 4) =
              memcpy (List.replicate 256 0) (env.request.store buffer1) 5
                (byte_at (env.request.store buffer1) 4) := by
            rw [k4]
            unfold memcpy
            congr 1
            apply List.map_congr_left
            intro i hi
            rw [List.mem_range] at hi
            exact hkey (5 + i) (by omega)
          have hp0 := hkey (byte_at (env.request.store buffer1) 4 + 5) (by omega)
          have hp1 := hkey (byte_at (env.request.store buffer1) 4 + 5 + 1) (by omega)
          have e1 := request_stage_domain_eq cfg env buffer1 _ (by omega)
            (by rw [hb0]) (by rw [hb1]) (by rw [hb2]) hd3 hlenL rfl
          have e2 := request_stage_domain_eq cfg env buffer2
            (c_string (memcpy (List.replicate 256 0) (env.request.store buffer1) 5
              (byte_at (env.request.store buffer1) 4)))
            (by omega) (by rw [k0, hb0]) (by rw [k1, hb1]) (by rw [k2, hb2])
            (by rw [k3]; exact hd3) (by rw [k4]; exact hlenL) (by rw [hmemcpy])
          rw [e1, e2, k4, hp0, hp1]
          simp only [connect_stage_buffer_irrelevant cfg env env.request.ret
            (env.request.store buffer2) (env.request.store buffer1)]

/-- The method scan looks only at `buffer[2], ..., buffer[n + 1]`. -/
theorem method_scan_congr (buffer1 buffer2 : List Nat) (n : Nat)
    (h : ∀ j, j < n → byte_at buffer1 (j + 2) = byte_at buffer2 (j + 2)) :
    ∀ fuel i ok, method_scan buffer1 n fuel i ok = method_scan buffer2 n fuel i ok := by
  intro fuel
  induction fuel with
  | zero =>
    intro i ok
    simp only [method_scan]
  | succ fuel ih =>
    intro i ok
    simp only [method_scan]
    by_cases hc : i < n ∧ ok = false
    · rw [if_pos hc, if_pos hc, h i hc.1, ih]
    · rw [if_neg hc, if_neg hc]

/-- The handler does not depend on what `buffer` holds when it starts. -/
theorem handler_buffer_irrelevant (cfg : Config) (env : Env) (buffer1 buffer2 : List Nat) :
    handler cfg env buffer1 = handler cfg env buffer2 := by
  cases hg : env.greeting with
  | error e =>
    have h : ∀ b, handler cfg env b =
        ⟨[.read .client_socket env.greeting], .exited EXIT_FAILURE⟩ := by
      intro b
      unfold handler
      simp [hg, ReadRes.ret]
    rw [h buffer1, h buffer2]
  | data msg =>
    have hret : env.greeting.ret = (msg.length : Int) := by rw [hg]; rfl
    have hneg : ¬ env.greeting.ret < 0 := by rw [hret]; omega
    have hkey : ∀ i, i < msg.length →
        byte_at (env.greeting.store buffer2) i = byte_at (env.greeting.store buffer1) i := by
      intro i hi
      rw [hg]
      exact byte_at_store msg buffer2 buffer1 i hi
    by_cases hbad : env.greeting.ret < 3 ∨
        (byte_at (env.greeting.store buffer1) 1 : Int) ≠ env.greeting.ret - 2
    · have h : ∀ b, byte_at (env.greeting.store b) 1 = byte_at (env.greeting.store buffer1) 1 →
          handler cfg env b =
            ⟨[.read .client_socket env.greeting, .close .client_socket],
              .exited EXIT_FAILURE⟩ := by
        intro b hb
        have hc : env.greeting.ret < 3 ∨ byte_at (env.greeting.store b) 0 ≠ 0x05 ∨
            (byte_at (env.greeting.store b) 1 : Int) ≠ env.greeting.ret - 2 := by
          rcases hbad with h | h
          · exact Or.inl h
          · exact Or.inr (Or.inr (by rw [hb]; exact h))
        unfold handler
        simp only [if_neg hneg, if_pos hc]
      by_cases hshort : env.greeting.ret < 3
      · have h2 : ∀ b, handler cfg env b =
            ⟨[.read .client_socket env.greeting, .close .client_socket],
              .exited EXIT_FAILURE⟩ := by
          intro b
          unfold handler
          simp only [if_neg hneg, if_pos (Or.inl hshort :
            env.greeting.ret < 3 ∨ byte_at (env.greeting.store b) 0 ≠ 0x05 ∨
              (byte_at (env.greeting.store b) 1 : Int) ≠ env.greeting.ret - 2)]
        rw [h2 buffer1, h2 buffer2]
      · rw [h buffer1 rfl, h buffer2 (hkey 1 (by omega))]
    · simp only [not_or, not_not, ne_eq] at hbad
      obtain ⟨h3, hn⟩ := hbad
      have k0 := hkey 0 (by omega)
      have k1 := hkey 1 (by omega)
      have hscan := method_scan_congr (env.greeting.store buffer2) (env.greeting.store buffer1)
        (byte_at (env.greeting.store buffer1) 1)
        (fun j hj => hkey (j + 2) (by omega))
      have hreq := request_stage_buffer_irrelevant cfg env (env.greeting.store buffer2)
        (env.greeting.store buffer1)
      unfold handler
      simp only [k0, k1, hscan, hreq]

/-- C19: the run of the handler, and the run of the request stage, are the same
whatever `buffer` held before the greeting, respectively the request, was
read, for every result of every call: no test, scan or copy of the negotiator
and the decoder depends on a byte at or beyond the number of bytes the read
returned. -/
theorem stale_buffer_bytes_are_never_used (cfg : Config) (env : Env)
    (buffer1 buffer2 : List Nat) :
    handler cfg env buffer1 = handler cfg env buffer2 ∧
      request_stage cfg env buffer1 = request_stage cfg env buffer2 :=
  ⟨handler_buffer_irrelevant cfg env buffer1 buffer2,
    request_stage_buffer_irrelevant cfg env buffer1 buffer2⟩

/-! ## The reserved byte and the full acceptance condition -/

/-- The decoder refuses every message that fails the acceptance condition. -/
theorem request_stage_reject_of_not_accepted (cfg : Config) (env : Env)
    (buffer0 msg : List Nat) (hr : env.request = .data msg)
    (hna : ¬ (5 ≤ msg.length ∧ msg[0]? = some 0x05 ∧ msg[1]? = some 0x01 ∧
      msg[2]? = some 0x00 ∧
      ((msg[3]? = some 0x01 ∧ msg.length = 10) ∨
        (msg[3]? = some 0x03 ∧ ∃ L, msg[4]? = some L ∧ msg.length = 7 + L)))) :
    request_stage cfg env buffer0 = fail_reply env [.read .client_socket env.request] := by
  apply request_stage_reject
  rcases short_or_five msg with hs | ⟨a, b, c, d, e, rest, hm⟩
  · left
    rw [hr]
    simp only [ReadRes.ret]
    omega
  · subst hm
    have hb0 : byte_at (env.request.store buffer0) 0 = a := by rw [hr]; rfl
    have hb1 : byte_at (env.request.store buffer0) 1 = b := by rw [hr]; rfl
    have hb2 : byte_at (env.request.store buffer0) 2 = c := by rw [hr]; rfl
    have hb3 : byte_at (env.request.store buffer0) 3 = d := by rw [hr]; rfl
    have hb4 : byte_at (env.request.store buffer0) 4 = e := by rw [hr]; rfl
    have hret : env.request.ret = (rest.length : Int) + 5 := by
      rw [hr]; simp only [ReadRes.ret, List.length_cons]; push_cast; ring
    rw [hb0, hb1, hb2, hb3, hb4, hret]
    by_contra hc
    simp only [not_or, not_and, not_not, ne_eq] at hc
    obtain ⟨_, h0, h1, h2, h31, h33, h3⟩ := hc
    apply hna
    subst h0 h1 h2
    refine ⟨by simp, rfl, rfl, rfl, ?_⟩
    by_cases hd : d = 1
    · left
      subst hd
      refine ⟨rfl, ?_⟩
      have := h31 rfl
      simp only [List.length_cons]
      omega
    · right
      have hd3 := h3 hd
      subst hd3
      refine ⟨rfl, e, by simp, ?_⟩
      have := h33 rfl
      simp only [List.length_cons]
      omega

/-- C20: a request whose byte at offset 2 is not 0 is refused with the failure
reply, whatever the rest of the message; and the decoder goes on (to the name
lookup or to the outbound socket) exactly for the messages of at least five
bytes with VER = 5, CMD = 1, RSV = 0 and either ATYP = 1 and length 10 or
ATYP = 3 and length `7 + L`, every other message getting the failure reply. -/
theorem request_acceptance_condition (cfg : Config) (env : Env) (buffer0 msg : List Nat)
    (hr : env.request = .data msg) :
    (∀ r, msg[2]? = some r → r ≠ 0 →
        request_stage cfg env buffer0 =
          ⟨[.read .client_socket env.request,
              .write .client_socket .connect_response
                [0x05, 0x01, 0x00, 0x01, 0x00, 0x00, 0x00, 0x00, 0x00, 0x00]
                env.failure_write.ret,
              .close .client_socket],
            .exited EXIT_FAILURE⟩) ∧
      (((∃ name, Event.gethostbyname name ∈ (request_stage cfg env buffer0).trace) ∨
          (∃ fd, Event.socket fd ∈ (request_stage cfg env buffer0).trace)) ↔
        (5 ≤ msg.length ∧ msg[0]? = some 0x05 ∧ msg[1]? = some 0x01 ∧
          msg[2]? = some 0x00 ∧
          ((msg[3]? = some 0x01 ∧ msg.length = 10) ∨
            (msg[3]? = some 0x03 ∧ ∃ L, msg[4]? = some L ∧ msg.length = 7 + L)))) ∧
      (¬ (5 ≤ msg.length ∧ msg[0]? = some 0x05 ∧ msg[1]? = some 0x01 ∧
          msg[2]? = some 0x00 ∧
          ((msg[3]? = some 0x01 ∧ msg.length = 10) ∨
            (msg[3]? = some 0x03 ∧ ∃ L, msg[4]? = some L ∧ msg.length = 7 + L))) →
        request_stage cfg env buffer0 =
          ⟨[.read .client_socket env.request,
              .write .client_socket .connect_response
                [0x05, 0x01, 0x00, 0x01, 0x00, 0x00, 0x00, 0x00, 0x00, 0x00]
                env.failure_write.ret,
              .close .client_socket],
            .exited EXIT_FAILURE⟩) := by
  have hrej := request_stage_reject_of_not_accepted cfg env buffer0 msg hr
  refine ⟨?_, ⟨?_, ?_⟩, ?_⟩
  · intro r h2 hne
    rw [hrej]
    · rfl
    · rintro ⟨_, _, _, h20, _⟩
      rw [h2] at h20
      exact hne (Option.some.inj h20)
  · intro hcall
    by_contra hna
    rw [hrej hna] at hcall
    simp [fail_reply] at hcall
  · rintro ⟨h5, h0, h1, h2, h3⟩
    rcases short_or_five msg with hs | ⟨a, b, c, d, e, rest, hm⟩
    · omega
    · subst hm
      simp only [List.getElem?_cons_succ, List.getElem?_cons_zero, Option.some.injEq] at h0 h1 h2 h3
      subst h0 h1 h2
      rcases h3 with ⟨hd, hl⟩ | ⟨hd, L, hL, hl⟩
      · subst hd
        right
        match rest, hl, hr with
        | [a1, a2, a3, p1, p2], _, hr =>
          refine ⟨env.socket, ?_⟩
          rw [request_stage_ipv4 cfg env buffer0 e a1 a2 a3 p1 p2 hr]
          simp only [Run.prepend, List.mem_append]
          exact Or.inr (connect_stage_calls_socket cfg env _ _ _)
      · subst hd hL
        left
        have hret : env.request.ret = (rest.length : Int) + 5 := by
          rw [hr]; simp only [ReadRes.ret, List.length_cons]; push_cast; ring
        have hb4 : byte_at (env.request.store buffer0) 4 = e := by rw [hr]; rfl
        refine ⟨_, request_stage_domain_lookup cfg env buffer0 (by omega)
          (by rw [hr]; rfl) (by rw [hr]; rfl) (by rw [hr]; rfl) (by rw [hr]; rfl) ?_⟩
        rw [hb4, hret]
        simp only [List.length_cons] at hl
        omega
  · intro hna
    rw [hrej hna]
    rfl

/-- Witness for C20: a ten-byte IPv4 CONNECT with reserved byte 1 is refused. -/
theorem request_acceptance_condition_witness :
    ({ sample_env with request := .data [5, 1, 1, 1, 127, 0, 0, 1, 0, 80] } : Env).request =
        .data [5, 1, 1, 1, 127, 0, 0, 1, 0, 80] ∧
      ([5, 1, 1, 1, 127, 0, 0, 1, 0, 80] : List Nat)[2]? = some 1 ∧
      request_stage ⟨[116, 117, 110, 48], 60⟩
          { sample_env with request := .data [5, 1, 1, 1, 127, 0, 0, 1, 0, 80] } [] =
        ⟨[.read .client_socket (.data [5, 1, 1, 1, 127, 0, 0, 1, 0, 80]),
            .write .client_socket .connect_response [5, 1, 0, 1, 0, 0, 0, 0, 0, 0] 10,
            .close .client_socket],
          .exited EXIT_FAILURE⟩ :=
  ⟨rfl, by decide,
    (request_acceptance_condition ⟨[116, 117, 110, 48], 60⟩
      { sample_env with request := .data [5, 1, 1, 1, 127, 0, 0, 1, 0, 80] } []
      [5, 1, 1, 1, 127, 0, 0, 1, 0, 80] rfl).1 1 (by decide) (by decide)⟩

end Soks
